import Mathlib

/-!
Verification of the csvee reader: a shallow embedding of `reader.go`,
`stream.go` and `csvee.go` against their natural-language specification,
together with models of the external collaborators the reader leans on.
The `encoding/csv` tokenizer is kept abstract as a stream of
tokenized-line outcomes; `encoding/json`, `strconv.ParseInt` and the
RFC 3339 slice of the `time` package are modelled concretely. Machine
integers are `Int` with explicit range checks; fallible code returns
`Except` or pairs a result with an error option; Go panics are modelled
as distinguished error values.
-/

set_option maxHeartbeats 1600000
set_option maxRecDepth 8000

namespace Csvee

def yearStartInEra (y : Int) : Int := 365 * y + y / 4 - y / 100 + y / 400


def cfdEra (z : Int) : Int := (z + 719468) / 146097


def cfdDoe (z : Int) : Int := z + 719468 - cfdEra z * 146097


def cfdYoe (doe : Int) : Int :=
  let cand := (400 * doe) / 146097
  if yearStartInEra (cand + 1) ≤ doe then cand + 1 else cand


def cfdDoy (doe : Int) : Int := doe - yearStartInEra (cfdYoe doe)


def cfdMp (doy : Int) : Int := (5 * doy + 2) / 153


def civilFromDays (z : Int) : Int × Int × Int :=
  let doe := cfdDoe z
  let yoe := cfdYoe doe
  let doy := cfdDoy doe
  let mp := cfdMp doy
  let d := doy - (153 * mp + 2) / 5 + 1
  let m := if mp < 10 then mp + 3 else mp - 9
  (cfdEra z * 400 + yoe + (if m ≤ 2 then 1 else 0), m, d)


def daysFromCivil (y m d : Int) : Int :=
  let yy := y - (if m ≤ 2 then 1 else 0)
  let era := yy / 400
  let yoe := yy - era * 400
  let mp := m + (if m > 2 then -3 else 9)
  let doy := (153 * mp + 2) / 5 + d - 1
  let doe := yoe * 365 + yoe / 4 - yoe / 100 + doy
  era * 146097 + doe - 719468


def isLeapYear (y : Int) : Bool := y % 4 == 0 && (y % 100 != 0 || y % 400 == 0)


def daysInMonth (y m : Int) : Int :=
  if m = 2 then (if isLeapYear y then 29 else 28)
  else if m = 4 ∨ m = 6 ∨ m = 9 ∨ m = 11 then 30
  else 31


def digitChar : Nat → Char
  | 0 => '0' | 1 => '1' | 2 => '2' | 3 => '3' | 4 => '4'
  | 5 => '5' | 6 => '6' | 7 => '7' | 8 => '8' | _ => '9'


def digitVal? (c : Char) : Option Int :=
  if c = '0' then some 0 else if c = '1' then some 1 else if c = '2' then some 2
  else if c = '3' then some 3 else if c = '4' then some 4 else if c = '5' then some 5
  else if c = '6' then some 6 else if c = '7' then some 7 else if c = '8' then some 8
  else if c = '9' then some 9 else none


def pad2 (x : Int) : List Char := [digitChar (x / 10).toNat, digitChar (x % 10).toNat]


def pad4 (x : Int) : List Char :=
  [digitChar (x / 1000).toNat, digitChar (x / 100 % 10).toNat,
   digitChar (x / 10 % 10).toNat, digitChar (x % 10).toNat]


def digit2 : List Char → Option (Int × List Char)
  | c1 :: c2 :: rest =>
    match digitVal? c1, digitVal? c2 with
    | some d1, some d2 => some (10 * d1 + d2, rest)
    | _, _ => none
  | _ => none


def digit4 : List Char → Option (Int × List Char)
  | c1 :: c2 :: c3 :: c4 :: rest =>
    match digitVal? c1, digitVal? c2, digitVal? c3, digitVal? c4 with
    | some d1, some d2, some d3, some d4 => some (1000 * d1 + 100 * d2 + 10 * d3 + d4, rest)
    | _, _, _, _ => none
  | _ => none


def expectChar (c : Char) : List Char → Option (List Char)
  | x :: rest => if x = c then some rest else none
  | [] => none


structure TimeVal where
  sec : Int
  offsetMin : Int
  deriving DecidableEq, Repr


def natDigitsAux : Nat → Nat → List Char → List Char
  | 0, _, acc => acc
  | _ + 1, 0, acc => acc
  | fuel + 1, n, acc => natDigitsAux fuel (n / 10) (digitChar (n % 10) :: acc)


def natDigits (n : Nat) : List Char := natDigitsAux 30 n []


def yearChars (y : Int) : List Char :=
  if 0 ≤ y ∧ y ≤ 9999 then pad4 y
  else if 0 ≤ y then natDigits y.toNat
  else '-' :: (if -y ≤ 9999 then pad4 (-y) else natDigits (-y).toNat)


def offsetChars (off : Int) : List Char :=
  if off = 0 then ['Z']
  else if 0 < off then '+' :: (pad2 (off / 60) ++ ':' :: pad2 (off % 60))
  else '-' :: (pad2 (-off / 60) ++ ':' :: pad2 (-off % 60))


/-- Model of Go's `Time.Format(time.RFC3339)`: the wall-clock fields under
the value's zone offset, then `Z` or a signed `hh:mm` offset. -/

def formatRFC3339 (t : TimeVal) : String :=
  let loc := t.sec + t.offsetMin * 60
  let days := loc / 86400
  let sod := loc % 86400
  let c := civilFromDays days
  String.mk (yearChars c.1 ++ '-' :: (pad2 c.2.1 ++ '-' :: (pad2 c.2.2 ++ 'T' ::
    (pad2 (sod / 3600) ++ ':' :: (pad2 (sod % 3600 / 60) ++ ':' ::
      (pad2 (sod % 60) ++ offsetChars t.offsetMin))))))


def parseOffset : List Char → Option Int
  | [] => none
  | c :: rest =>
    if c = 'Z' then (if rest = [] then some 0 else none)
    else if c = '+' ∨ c = '-' then
      match digit2 rest with
      | none => none
      | some (oh, r1) =>
        if 23 < oh then none else
        match expectChar ':' r1 with
        | none => none
        | some r2 =>
          match digit2 r2 with
          | none => none
          | some (om, r3) =>
            if 59 < om then none else
            if r3 = [] then some (if c = '+' then oh * 60 + om else -(oh * 60 + om)) else none
    else none


/-- Model of Go's strict RFC 3339 parsing (`time.Parse` with the RFC3339
layout, as used by `time.Time.UnmarshalJSON`): four-digit year, two-digit
numeric fields, range-checked, `Z` or signed `hh:mm` offset, no fractional
seconds. -/

def parseRFC3339Chars (cs : List Char) : Option TimeVal :=
  match digit4 cs with
  | none => none
  | some (y, r1) =>
    match expectChar '-' r1 with
    | none => none
    | some r2 =>
      match digit2 r2 with
      | none => none
      | some (m, r3) =>
        if m < 1 ∨ 12 < m then none else
        match expectChar '-' r3 with
        | none => none
        | some r4 =>
          match digit2 r4 with
          | none => none
          | some (d, r5) =>
            if d < 1 ∨ daysInMonth y m < d then none else
            match expectChar 'T' r5 with
            | none => none
            | some r6 =>
              match digit2 r6 with
              | none => none
              | some (hh, r7) =>
                if 23 < hh then none else
                match expectChar ':' r7 with
                | none => none
                | some r8 =>
                  match digit2 r8 with
                  | none => none
                  | some (mi, r9) =>
                    if 59 < mi then none else
                    match expectChar ':' r9 with
                    | none => none
                    | some r10 =>
                      match digit2 r10 with
                      | none => none
                      | some (ss, r11) =>
                        if 59 < ss then none else
                        match parseOffset r11 with
                        | none => none
                        | some off =>
                          some ⟨daysFromCivil y m d * 86400 + hh * 3600 + mi * 60 + ss -
                            off * 60, off⟩


def parseRFC3339 (s : String) : Option TimeVal := parseRFC3339Chars s.data


inductive JVal where
  | jstr (s : String)
  | jnum (raw : String)
  | jbool (b : Bool)
  | jnull
  | jarr (elems : List JVal)
  | jobj (members : List (String × JVal))
  deriving Repr


def hexVal? (c : Char) : Option Nat :=
  if '0' ≤ c ∧ c ≤ '9' then some (c.toNat - 48)
  else if 'a' ≤ c ∧ c ≤ 'f' then some (c.toNat - 87)
  else if 'A' ≤ c ∧ c ≤ 'F' then some (c.toNat - 55)
  else none


/-- Model of Go's JSON string-content scanner and unquoter: standard
escapes, strict rejection of raw control characters, `\uXXXX` with
surrogate-pair combination and U+FFFD for lone surrogates. Fuelled to
keep the recursion structural; one unit of fuel is spent per scanned
unit, so input length plus one is always enough. -/

def lexStringF : Nat → List Char → Option (List Char × List Char)
  | 0, _ => none
  | _ + 1, [] => none
  | fuel + 1, c :: rest =>
    if c = '"' then some ([], rest)
    else if c = '\\' then
      match rest with
      | [] => none
      | e :: rest2 =>
        if e = '"' then (lexStringF fuel rest2).map (fun p => ('"' :: p.1, p.2))
        else if e = '\\' then (lexStringF fuel rest2).map (fun p => ('\\' :: p.1, p.2))
        else if e = '/' then (lexStringF fuel rest2).map (fun p => ('/' :: p.1, p.2))
        else if e = 'b' then (lexStringF fuel rest2).map (fun p => (Char.ofNat 8 :: p.1, p.2))
        else if e = 'f' then (lexStringF fuel rest2).map (fun p => (Char.ofNat 12 :: p.1, p.2))
        else if e = 'n' then (lexStringF fuel rest2).map (fun p => ('\n' :: p.1, p.2))
        else if e = 'r' then (lexStringF fuel rest2).map (fun p => (Char.ofNat 13 :: p.1, p.2))
        else if e = 't' then (lexStringF fuel rest2).map (fun p => ('\t' :: p.1, p.2))
        else if e = 'u' then
          match rest2 with
          | h1 :: h2 :: h3 :: h4 :: rest3 =>
            match hexVal? h1, hexVal? h2, hexVal? h3, hexVal? h4 with
            | some a, some b, some c3, some d =>
              let code := a * 4096 + b * 256 + c3 * 16 + d
              if 0xD800 ≤ code ∧ code ≤ 0xDFFF then
                match rest3 with
                | '\\' :: 'u' :: g1 :: g2 :: g3 :: g4 :: rest4 =>
                  match hexVal? g1, hexVal? g2, hexVal? g3, hexVal? g4 with
                  | some a2, some b2, some c2, some d2 =>
                    let code2 := a2 * 4096 + b2 * 256 + c2 * 16 + d2
                    if 0xD800 ≤ code ∧ code ≤ 0xDBFF ∧ 0xDC00 ≤ code2 ∧ code2 ≤ 0xDFFF then
                      (lexStringF fuel rest4).map
                        (fun p =>
                          (Char.ofNat (0x10000 + (code - 0xD800) * 1024 + (code2 - 0xDC00)) ::
                            p.1, p.2))
                    else (lexStringF fuel rest3).map (fun p => (Char.ofNat 0xFFFD :: p.1, p.2))
                  | _, _, _, _ => (lexStringF fuel rest3).map (fun p => (Char.ofNat 0xFFFD :: p.1, p.2))
                | _ => (lexStringF fuel rest3).map (fun p => (Char.ofNat 0xFFFD :: p.1, p.2))
              else (lexStringF fuel rest3).map (fun p => (Char.ofNat code :: p.1, p.2))
            | _, _, _, _ => none
          | _ => none
        else none
    else if c.toNat < 32 then none
    else (lexStringF fuel rest).map (fun p => (c :: p.1, p.2))


def lexString (cs : List Char) : Option (List Char × List Char) :=
  lexStringF (cs.length + 1) cs


/-- A character that the reader's quote-escaping leaves fixed and that the
JSON string scanner copies verbatim. -/

def plainChar (c : Char) : Bool := c ≠ '\\' ∧ 32 ≤ c.toNat


def escapeQuotesChars : List Char → List Char
  | [] => []
  | c :: rest => if c = '"' then '\\' :: '"' :: escapeQuotesChars rest else c :: escapeQuotesChars rest


def isDig (c : Char) : Bool := '0' ≤ c ∧ c ≤ '9'


def takeDigits : List Char → List Char × List Char
  | [] => ([], [])
  | c :: rest =>
    if isDig c then
      let p := takeDigits rest
      (c :: p.1, p.2)
    else ([], c :: rest)


def lexExpPart (sofar : List Char) (cs : List Char) : Option (List Char × List Char) :=
  match cs with
  | e :: r =>
    if e = 'e' ∨ e = 'E' then
      let sp : List Char × List Char :=
        match r with
        | '+' :: rr => (['+'], rr)
        | '-' :: rr => (['-'], rr)
        | _ => ([], r)
      let dp := takeDigits sp.2
      if dp.1 = [] then none else some (sofar ++ e :: sp.1 ++ dp.1, dp.2)
    else some (sofar, cs)
  | [] => some (sofar, [])


def lexFracPart (intPart : List Char) (cs : List Char) : Option (List Char × List Char) :=
  match cs with
  | '.' :: r =>
    let dp := takeDigits r
    if dp.1 = [] then none else lexExpPart (intPart ++ '.' :: dp.1) dp.2
  | _ => lexExpPart intPart cs


/-- Model of Go's JSON number token scanner: optional minus, integer part
with no leading zero, optional fraction and exponent. -/

def lexNumber (cs : List Char) : Option (List Char × List Char) :=
  match cs with
  | '-' :: r =>
    match r with
    | '0' :: r1 => (lexFracPart ['-', '0'] r1)
    | c :: r1 =>
      if isDig c then
        let dp := takeDigits r1
        lexFracPart ('-' :: c :: dp.1) dp.2
      else none
    | [] => none
  | '0' :: r1 => lexFracPart ['0'] r1
  | c :: r1 =>
    if isDig c then
      let dp := takeDigits r1
      lexFracPart (c :: dp.1) dp.2
    else none
  | [] => none


def isWs (c : Char) : Bool := c = ' ' ∨ c = '\t' ∨ c = '\n' ∨ c = Char.ofNat 13


def skipWs : List Char → List Char
  | [] => []
  | c :: rest => if isWs c then skipWs rest else c :: rest


mutual


/-- Model of Go's JSON grammar (`encoding/json` validity scanner plus
value structure), fuelled to keep the recursion structural; the fuel
spent is bounded by the input length. -/

def parseJValue : Nat → List Char → Option (JVal × List Char)
  | 0, _ => none
  | fuel + 1, cs =>
    match cs with
    | [] => none
    | c :: rest =>
      if c = '"' then
        match lexString rest with
        | none => none
        | some (content, r) => some (.jstr (String.mk content), r)
      else if c = '{' then parseJObject fuel (skipWs rest)
      else if c = '[' then parseJArray fuel (skipWs rest)
      else
        match cs with
        | 't' :: 'r' :: 'u' :: 'e' :: r => some (.jbool true, r)
        | 'f' :: 'a' :: 'l' :: 's' :: 'e' :: r => some (.jbool false, r)
        | 'n' :: 'u' :: 'l' :: 'l' :: r => some (.jnull, r)
        | _ =>
          match lexNumber cs with
          | none => none
          | some (raw, r) => some (.jnum (String.mk raw), r)


def parseJObject : Nat → List Char → Option (JVal × List Char)
  | 0, _ => none
  | fuel + 1, cs =>
    match cs with
    | [] => none
    | c :: rest =>
      if c = '}' then some (.jobj [], rest)
      else parseJMembers fuel (c :: rest) []


def parseJMembers : Nat → List Char → List (String × JVal) → Option (JVal × List Char)
  | 0, _, _ => none
  | fuel + 1, cs, acc =>
    match cs with
    | [] => none
    | c :: rest =>
      if c = '"' then
        match lexString rest with
        | none => none
        | some (nameChars, r1) =>
          match skipWs r1 with
          | [] => none
          | c2 :: r2 =>
            if c2 = ':' then
              match parseJValue fuel (skipWs r2) with
              | none => none
              | some (v, r3) =>
                match skipWs r3 with
                | [] => none
                | c3 :: r4 =>
                  if c3 = ',' then
                    parseJMembers fuel (skipWs r4) (acc ++ [(String.mk nameChars, v)])
                  else if c3 = '}' then some (.jobj (acc ++ [(String.mk nameChars, v)]), r4)
                  else none
            else none
      else none


def parseJArray : Nat → List Char → Option (JVal × List Char)
  | 0, _ => none
  | fuel + 1, cs =>
    match cs with
    | [] => none
    | c :: rest =>
      if c = ']' then some (.jarr [], rest)
      else parseJElems fuel (c :: rest) []


def parseJElems : Nat → List Char → List JVal → Option (JVal × List Char)
  | 0, _, _ => none
  | fuel + 1, cs, acc =>
    match parseJValue fuel cs with
    | none => none
    | some (v, r1) =>
      match skipWs r1 with
      | [] => none
      | c2 :: r2 =>
        if c2 = ',' then parseJElems fuel (skipWs r2) (acc ++ [v])
        else if c2 = ']' then some (.jarr (acc ++ [v]), r2)
        else none


end


/-- Model of `encoding/json` top-level parsing: one value, then only
trailing whitespace. -/

def jsonParse (s : String) : Option JVal :=
  match parseJValue (s.data.length + 1) (skipWs s.data) with
  | none => none
  | some (v, rest) => if skipWs rest = [] then some v else none


/-- Model of the relevant universe of Go reflect types. -/

inductive GoType where
  | ptr (t : GoType)
  | slice (elem : GoType)
  | array (elem : GoType)
  | tint | tint8 | tint16 | tint32 | tint64
  | tuint | tuint8 | tuint16 | tuint32 | tuint64
  | tfloat32 | tfloat64
  | tbool
  | tstring
  | ttime
  | tstruct (fields : List (String × GoType))
  | tmap
  | tother


/-- Model of the runtime errors and panics the reader can produce. -/

inductive GoErr where
  | eof
  | csvParseError (msg : String)
  | errColumnNamesMismatch
  | errUnsupportedTargetType
  | errInvalidFieldType
  | errReadAllNotSlicePointer
  | errReadTargetNil
  | numError (fn : String) (num : String)
  | timeParseError (layout value : String)
  | jsonSyntaxError
  | jsonTypeError
  | headerReadError (wrapped : GoErr)
  | panicIndexOutOfRange
  | panicFieldByNameOfNonStruct
  | unmodeledTarget
  deriving DecidableEq, Repr


inductive GoScalar where
  | sInt (n : Int)
  | sUint (n : Int)
  | sFloatLit (lit : String)
  | sBool (b : Bool)
  | sStr (s : String)
  | sTime (t : TimeVal)
  deriving DecidableEq, Repr


inductive GoFieldVal where
  | fScalar (v : GoScalar)
  | fSlice (vs : List GoScalar)
  deriving DecidableEq, Repr


/-- A decoded struct value: one entry per struct field, in declaration
order. -/

abbrev TargetVal := List (String × GoFieldVal)


def lookupAssoc {A : Type} : List (String × A) → String → Option A
  | [], _ => none
  | (k, v) :: rest, key => if k = key then some v else lookupAssoc rest key


def updateAssoc {A : Type} : List (String × A) → String → A → List (String × A)
  | [], _, _ => []
  | (k, v) :: rest, key, nv =>
    if k = key then (k, nv) :: rest else (k, v) :: updateAssoc rest key nv


/-- Model of `getBaseType`: strip any number of pointer indirections. -/

def getBaseType : GoType → GoType
  | .ptr t => getBaseType t
  | t => t


/-- Model of `isTimeType`: the type is `time.Time`. -/

def isTimeType : GoType → Bool
  | .ttime => true
  | _ => false


/-- Model of `typeIsValid`: the supported scalar kinds plus `time.Time`. -/

def typeIsValid (t : GoType) : Bool :=
  match t with
  | .tint | .tint8 | .tint16 | .tint32 | .tint64 => true
  | .tuint | .tuint8 | .tuint16 | .tuint32 | .tuint64 => true
  | .tfloat32 | .tfloat64 | .tbool | .tstring => true
  | _ => isTimeType t


/-- Model of `getFieldTypeInfo`. -/

def getFieldTypeInfo (t : GoType) : GoType × Option GoType × Bool :=
  let fieldType := getBaseType t
  match fieldType with
  | .slice e => (fieldType, some (getBaseType e), typeIsValid (getBaseType e))
  | .array e => (fieldType, some (getBaseType e), typeIsValid (getBaseType e))
  | _ => (fieldType, none, typeIsValid fieldType)


def isStructKind : GoType → Bool
  | .tstruct _ => true
  | _ => false


def isMapKind : GoType → Bool
  | .tmap => true
  | _ => false


def digitsToNatAux : List Char → Nat → Option Nat
  | [], acc => some acc
  | c :: rest, acc => if isDig c then digitsToNatAux rest (acc * 10 + (c.toNat - 48)) else none


def digitsToNat? : List Char → Option Nat
  | [] => none
  | cs => digitsToNatAux cs 0


/-- Model of `strconv.ParseInt(s, 10, 0)` on a 64-bit platform: optional
sign, decimal digits, 64-bit signed range. The strconv error (syntax or
range) carries the function name and the input. -/

def parseGoInt (s : String) : Except GoErr Int :=
  let failure : Except GoErr Int := .error (.numError "ParseInt" s)
  let signed : Bool × List Char :=
    match s.data with
    | '+' :: rest => (false, rest)
    | '-' :: rest => (true, rest)
    | cs => (false, cs)
  match digitsToNat? signed.2 with
  | none => failure
  | some mag =>
    if signed.1 then
      if mag ≤ 9223372036854775808 then .ok (-(mag : Int)) else failure
    else
      if mag ≤ 9223372036854775807 then .ok (mag : Int) else failure


/-- Integer decoding used by `encoding/json` for integer targets:
`strconv.ParseInt` on the raw number literal, so fractions and exponents
are rejected, then a reflect overflow check against the field's width. -/

def decodeJSONInt (raw : String) (lo hi : Int) : Except GoErr Int :=
  match parseGoInt raw with
  | .error _ => .error .jsonTypeError
  | .ok n => if lo ≤ n ∧ n ≤ hi then .ok n else .error .jsonTypeError


def decodeJSONUint (raw : String) (hi : Int) : Except GoErr Int :=
  match raw.data with
  | '-' :: _ => .error .jsonTypeError
  | _ =>
    match parseGoInt raw with
    | .error _ => .error .jsonTypeError
    | .ok n => if n ≤ hi then .ok n else .error .jsonTypeError


def rfc3339Layout : String := "2006-01-02T15:04:05Z07:00"


def jnumRaw : JVal → String
  | .jnum raw => raw
  | _ => "x"


/-- Model of decoding one JSON value into a scalar Go value
(`encoding/json` literal store plus `time.Time.UnmarshalJSON`).
JSON `null` leaves the current value unchanged. IEEE floating-point
semantics are not modelled: float fields keep the raw literal text. -/

def decodeScalar (k : GoType) (current : GoScalar) (j : JVal) : Except GoErr GoScalar :=
  match j with
  | .jnull => .ok current
  | _ =>
    match k with
    | .tint => (decodeJSONInt (jnumRaw j) (-9223372036854775808) 9223372036854775807).map .sInt
    | .tint64 => (decodeJSONInt (jnumRaw j) (-9223372036854775808) 9223372036854775807).map .sInt
    | .tint8 => (decodeJSONInt (jnumRaw j) (-128) 127).map .sInt
    | .tint16 => (decodeJSONInt (jnumRaw j) (-32768) 32767).map .sInt
    | .tint32 => (decodeJSONInt (jnumRaw j) (-2147483648) 2147483647).map .sInt
    | .tuint => (decodeJSONUint (jnumRaw j) 18446744073709551615).map .sUint
    | .tuint64 => (decodeJSONUint (jnumRaw j) 18446744073709551615).map .sUint
    | .tuint8 => (decodeJSONUint (jnumRaw j) 255).map .sUint
    | .tuint16 => (decodeJSONUint (jnumRaw j) 65535).map .sUint
    | .tuint32 => (decodeJSONUint (jnumRaw j) 4294967295).map .sUint
    | .tfloat32 | .tfloat64 =>
      match j with
      | .jnum raw => .ok (.sFloatLit raw)
      | _ => .error .jsonTypeError
    | .tbool =>
      match j with
      | .jbool b => .ok (.sBool b)
      | _ => .error .jsonTypeError
    | .tstring =>
      match j with
      | .jstr s => .ok (.sStr s)
      | _ => .error .jsonTypeError
    | .ttime =>
      match j with
      | .jstr s =>
        match parseRFC3339 s with
        | some tv => .ok (.sTime tv)
        | none => .error (.timeParseError rfc3339Layout s)
      | _ => .error .jsonTypeError
    | _ => .error .jsonTypeError


def zeroScalar (k : GoType) : GoScalar :=
  match k with
  | .tint | .tint8 | .tint16 | .tint32 | .tint64 => .sInt 0
  | .tuint | .tuint8 | .tuint16 | .tuint32 | .tuint64 => .sUint 0
  | .tfloat32 | .tfloat64 => .sFloatLit "0"
  | .tbool => .sBool false
  | .tstring => .sStr ""
  | .ttime => .sTime ⟨-62135596800, 0⟩
  | _ => .sStr ""


def zeroField (t : GoType) : GoFieldVal :=
  match getBaseType t with
  | .slice e => .fSlice []
  | .array e => .fSlice []
  | bt => .fScalar (zeroScalar bt)


def zeroStruct (fields : List (String × GoType)) : TargetVal :=
  fields.map (fun p => (p.1, zeroField p.2))


def decodeSliceElems (ek : GoType) : List JVal → List GoScalar × Option GoErr
  | [] => ([], none)
  | j :: rest =>
    let head := decodeScalar ek (zeroScalar ek) j
    let tail := decodeSliceElems ek rest
    match head with
    | .ok v => (v :: tail.1, tail.2)
    | .error e => (zeroScalar ek :: tail.1, some (tail.2.getD e))


/-- Decode one JSON member value into one struct field, Go-style: on a
type error the first error is recorded and decoding continues. -/

def decodeField (t : GoType) (current : GoFieldVal) (j : JVal) : GoFieldVal × Option GoErr :=
  match getBaseType t with
  | .slice e =>
    (match j with
     | .jnull => (.fSlice [], none)
     | .jarr xs =>
       let p := decodeSliceElems (getBaseType e) xs
       (.fSlice p.1, p.2)
     | _ => (current, some .jsonTypeError))
  | .array e =>
    (match j with
     | .jnull => (current, none)
     | .jarr xs =>
       let p := decodeSliceElems (getBaseType e) xs
       (.fSlice p.1, p.2)
     | _ => (current, some .jsonTypeError))
  | bt =>
    let cur : GoScalar :=
      match current with
      | .fScalar v => v
      | _ => zeroScalar bt
    match decodeScalar bt cur j with
    | .ok v => (.fScalar v, none)
    | .error e => (current, some e)


def decodeMembers (fields : List (String × GoType)) :
    List (String × JVal) → TargetVal → TargetVal × Option GoErr
  | [], acc => (acc, none)
  | (name, jv) :: rest, acc =>
    match lookupAssoc fields name with
    | none => decodeMembers fields rest acc
    | some ftype =>
      let cur := (lookupAssoc acc name).getD (zeroField ftype)
      let p := decodeField ftype cur jv
      let next := decodeMembers fields rest (updateAssoc acc name p.1)
      (next.1, (p.2.map some).getD next.2)


/-- Model of `json.Unmarshal` into a (pointer to) struct: validate and
parse the whole input first, then decode members in order, keeping the
first error and continuing. Unknown members are ignored. -/

def unmarshalStruct (fields : List (String × GoType)) (init : TargetVal) (s : String) :
    TargetVal × Option GoErr :=
  match jsonParse s with
  | none => (init, some .jsonSyntaxError)
  | some j =>
    match j with
    | .jobj members => decodeMembers fields members init
    | .jnull => (init, none)
    | _ => (init, some .jsonTypeError)


/-- The distinguished `ColumnFormats` value meaning integer epoch seconds
(`TimeFormatUnix` in csvee.go). -/

def TimeFormatUnix : String := "unix"


/-- Model of the `Reader` struct: the column schema and the per-column
format overrides. The embedded `*csv.Reader` cursor is passed separately
as a list of tokenized-line outcomes. -/

structure Reader where
  ColumnNames : List String
  ColumnFormats : List (String × String)
  deriving Repr


/-- One outcome of `csv.Reader.Read`: a tokenized record or a tokenizer
error (the tokenizer is the external collaborator `encoding/csv`; its
error is opaque). End of input is the end of the list. -/

abbrev CsvLine := Except String (List String)


abbrev CsvState := List CsvLine


/-- The ambient external inputs of the reader that Go supplies silently:
the local time-zone offset (minutes east of UTC, as used by `time.Unix`
and `Format`) and the layout-driven `time.Parse` for non-`"unix"` format
overrides (`none` models a parse failure). -/

structure TimeEnv where
  tzOffsetMin : Int
  timeParse : String → String → Option TimeVal


def goSplitCommaChars : List Char → List (List Char)
  | [] => [[]]
  | c :: rest =>
    let r := goSplitCommaChars rest
    if c = ',' then [] :: r
    else
      match r with
      | h :: t => (c :: h) :: t
      | [] => [[c]]


/-- Model of `strings.Split(s, ",")`. -/

def goSplitComma (s : String) : List String :=
  (goSplitCommaChars s.data).map String.mk


/-- Model of `strings.ReplaceAll(field, quote, backslash-quote)`. -/

def escapeQuotes (s : String) : String := String.mk (escapeQuotesChars s.data)


/-- Model of `strings.Join(parts, ",")`. -/

def joinComma : List String → String
  | [] => ""
  | [x] => x
  | x :: rest => x ++ "," ++ joinComma rest


def quoteJSON (s : String) : String := "\"" ++ s ++ "\""


/-- Model of `Reader.parseTime`: look up the column's format override; no
override passes the field through; the `"unix"` token parses epoch
seconds and renders the local-zone instant; any other override runs
`time.Parse` and renders the result; parse errors propagate verbatim. -/

def parseTime (r : Reader) (env : TimeEnv) (field : String) (column : Nat) :
    Except GoErr String :=
  match lookupAssoc r.ColumnFormats (r.ColumnNames.getD column "") with
  | none => .ok field
  | some format =>
    if format = TimeFormatUnix then
      match parseGoInt field with
      | .error e => .error e
      | .ok intField => .ok (formatRFC3339 ⟨intField, env.tzOffsetMin⟩)
    else
      match env.timeParse format field with
      | none => .error (.timeParseError format field)
      | some tm => .ok (formatRFC3339 tm)


def buildTimeSliceValues (r : Reader) (env : TimeEnv) (column : Nat) :
    List String → Except GoErr (List String)
  | [] => .ok []
  | v :: rest =>
    match parseTime r env v column with
    | .error e => .error e
    | .ok value =>
      match buildTimeSliceValues r env column rest with
      | .error e => .error e
      | .ok tail => .ok (quoteJSON value :: tail)


/-- Model of `Reader.buildSliceFieldValue`: split the raw field on commas;
string elements are individually quoted (without escaping), time elements
go through `parseTime`, anything else is passed through verbatim inside
the brackets. -/

def buildSliceFieldValue (r : Reader) (env : TimeEnv) (t : GoType) (field : String)
    (column : Nat) : Except GoErr String :=
  match t with
  | .tstring => .ok ("[" ++ joinComma ((goSplitComma field).map quoteJSON) ++ "]")
  | .ttime =>
    match buildTimeSliceValues r env column (goSplitComma field) with
    | .error e => .error e
    | .ok sliceValues => .ok ("[" ++ joinComma sliceValues ++ "]")
  | _ => .ok ("[" ++ field ++ "]")


/-- Model of `reflect.Type.FieldByName`, which panics on non-struct
receivers (the map branch of `read` reaches this panic on any non-empty
record). -/

def fieldByName (t : GoType) (name : String) : Except GoErr (Option GoType) :=
  match t with
  | .tstruct fields => .ok (lookupAssoc fields name)
  | _ => .error .panicFieldByNameOfNonStruct


/-- The field loop of `Reader.read`: one labelled `"name":value` entry per
record position; a column with no matching struct member leaves an empty
string in its slot (the skip path). -/

def buildLabeledFields (r : Reader) (env : TimeEnv) (vType : GoType) :
    List String → Nat → Except GoErr (List String)
  | [], _ => .ok []
  | field :: rest, i =>
    match fieldByName vType (r.ColumnNames.getD i "") with
    | .error e => .error e
    | .ok none =>
      match buildLabeledFields r env vType rest (i + 1) with
      | .error e => .error e
      | .ok tail => .ok ("" :: tail)
    | .ok (some structFieldType) =>
      let info := getFieldTypeInfo structFieldType
      if info.2.2 = false then .error .errInvalidFieldType
      else
        let step1 : Except GoErr String :=
          match info.1 with
          | .tstring => .ok (quoteJSON (escapeQuotes field))
          | .ttime =>
            match parseTime r env field i with
            | .error e => .error e
            | .ok v => .ok (quoteJSON v)
          | _ => .ok field
        match step1 with
        | .error e => .error e
        | .ok fv0 =>
          let step2 : Except GoErr String :=
            match info.2.1 with
            | some sliceType => buildSliceFieldValue r env sliceType field i
            | none => .ok fv0
          match step2 with
          | .error e => .error e
          | .ok fieldValue =>
            match buildLabeledFields r env vType rest (i + 1) with
            | .error e => .error e
            | .ok tail => .ok ((quoteJSON (r.ColumnNames.getD i "") ++ ":" ++ fieldValue) :: tail)


/-- Model of `Reader.read` on one tokenized-line outcome: propagate
tokenizer errors, enforce the field-count/schema invariant, reject
non-struct/map targets, then assemble the labelled JSON object literal. -/

def read1 (r : Reader) (env : TimeEnv) (target : GoType) (line : CsvLine) :
    Except GoErr String :=
  match line with
  | .error msg => .error (.csvParseError msg)
  | .ok record =>
    if record.length ≠ r.ColumnNames.length then .error .errColumnNamesMismatch
    else
      let vType := getBaseType target
      if isStructKind vType = false ∧ isMapKind vType = false then
        .error .errUnsupportedTargetType
      else
        match buildLabeledFields r env vType record 0 with
        | .error e => .error e
        | .ok labeledFields => .ok ("\x7b" ++ joinComma labeledFields ++ "\x7d")


/-- Model of `Reader.Read`: nil-target check, one `read`, then
`json.Unmarshal` into the target. The result pairs the final target value
with the returned error; on a pre-decode error the target is untouched. -/

def Read (r : Reader) (env : TimeEnv) (target : GoType) (targetIsNil : Bool)
    (init : TargetVal) (csv : CsvState) : TargetVal × Option GoErr :=
  if targetIsNil then (init, some .errReadTargetNil)
  else
    match csv with
    | [] => (init, some .eof)
    | line :: _ =>
      match read1 r env target line with
      | .error e => (init, some e)
      | .ok jsonRecord =>
        match getBaseType target with
        | .tstruct fields => unmarshalStruct fields init jsonRecord
        | _ => (init, some .unmodeledTarget)


/-- The shapes the `ReadAll` argument can take, as `ReadAll` classifies
them by reflection: not a pointer, a nil pointer, a pointer to a
non-slice, or a pointer to a slice with the given element base type. -/

inductive ReadAllArg where
  | notPointer
  | nilPointer
  | pointerToNonSlice
  | slicePtr (base : GoType)


/-- The producer goroutine of `ReadAll`: run `read` per line, streaming
each assembled literal, until end of input (no error) or the first
failure (captured as `streamParseError`). -/

def produceAll (r : Reader) (env : TimeEnv) (base : GoType) :
    CsvState → List String × Option GoErr
  | [] => ([], none)
  | line :: rest =>
    match read1 r env base line with
    | .error e => ([], some e)
    | .ok json =>
      let p := produceAll r env base rest
      (json :: p.1, p.2)


def decodeRecord (base : GoType) (s : String) : TargetVal × Option GoErr :=
  match base with
  | .tstruct fields => unmarshalStruct fields (zeroStruct fields) s
  | _ => ([], some .unmodeledTarget)


/-- UTF-8 byte length of a character list, as Go measures the record
strings it copies into the decoder's buffer. -/

def utf8Len : List Char → Nat
  | [] => 0
  | c :: rest => c.utf8Size + utf8Len rest


/-- Model of `stringStreamReader.Read` (stream.go): the next string
from the channel is copied into the buffer `p` through a throwaway
`strings.Reader`, so only the first `min (len p) (len nextString)`
bytes arrive and the remainder of the record is silently discarded.
`bufLen` is the free space `json.Decoder` hands to `Read` when it
refills — always at least 512 bytes, its exact value depending on the
decoder's buffer-growth history. A character whose encoding straddles
the cut is modeled as wholly dropped: its leading bytes are not
representable as characters and would at any rate only corrupt the
stream further. -/

def stringStreamRead : Nat → List Char → List Char
  | _, [] => []
  | bufLen, c :: rest =>
    if c.utf8Size ≤ bufLen then c :: stringStreamRead (bufLen - c.utf8Size) rest
    else []


/-- The chunks the decoder's successive `Read` calls observe: each
produced record string is delivered through one call, truncated to the
schedule-chosen buffer capacity `caps i` (each at least 512). -/

def deliveredChunks : (Nat → Nat) → List String → List (List Char)
  | _, [] => []
  | caps, s :: rest =>
    stringStreamRead (caps 0) s.data :: deliveredChunks (fun i => caps (i + 1)) rest


/-- Outcome of a `ReadAll` call. `ok` is a plain return. Every early
exit of the consumer loop — a `Decode` error, or the racy break on
`streamParseError` — happens with the producer's deferred sentinel
send `stream.Stream("")` still undrained, so the producer is blocked
in (or headed for) a channel send when the consumer's deferred
`stream.Close()` closes that channel: the producer goroutine panics
with a send on a closed channel, and the panic, in a bare goroutine,
kills the process. `crashSendOnClosedChannel` records the slice
contents and error `ReadAll` hands back just before the crash lands. -/

inductive ReadAllResult where
  | ok (recs : List TargetVal) (err : Option GoErr)
  | crashSendOnClosedChannel (recs : List TargetVal) (err : Option GoErr)


/-- The consumer loop of `ReadAll` over the delivered chunks:
`dec.More()` pulls the next chunk (at the end of the list it consumes
the sentinel's EOF and the loop returns `streamParseError` cleanly),
`dec.Decode` parses and appends it. A decode failure is returned from
the middle of the loop, after which the process crashes as described
at `ReadAllResult`. The real decoder parses the concatenation of the
chunks; a truncated record corrupts that stream and an error surfaces
while the truncated record is being decoded, modeled here as the
decode failure of the truncated chunk itself. -/

def consumeAllGo (base : GoType) (perr : Option GoErr) :
    List (List Char) → ReadAllResult
  | [] => .ok [] perr
  | chunk :: rest =>
    match decodeRecord base (String.mk chunk) with
    | (_, some e) => .crashSendOnClosedChannel [] (some e)
    | (v, none) =>
      match consumeAllGo base perr rest with
      | .ok recs err => .ok (v :: recs) err
      | .crashSendOnClosedChannel recs err =>
        .crashSendOnClosedChannel (v :: recs) err


/-- The consumer side of `ReadAll`, with its schedule freedom. The
unsynchronized check of `streamParseError` at the top of the loop can
race only at its final reachable iteration: the producer writes the
flag after its send of the last produced record has completed, and
every earlier check happens before that send, so the one schedule
choice is whether the check that follows `dec.More()`'s pull of the
last produced record observes the write. `racyErrObserved` selects
that schedule: the consumer breaks with the last record pulled into
the decoder's buffer but never decoded (so its delivery is elided
here), returns `streamParseError`, and — the sentinel being undrained
— the deferred `Close` panics the blocked producer and the process
crashes. When the producer fails before producing any record, the
consumer can only be woken by the sentinel, so no racy schedule
exists. -/

def consumeAll (base : GoType) (racyErrObserved : Bool) (caps : Nat → Nat)
    (produced : List String) (perr : Option GoErr) : ReadAllResult :=
  if racyErrObserved && perr.isSome && !produced.isEmpty then
    match consumeAllGo base perr (deliveredChunks caps produced.dropLast) with
    | .ok recs _ => .crashSendOnClosedChannel recs perr
    | .crashSendOnClosedChannel recs err => .crashSendOnClosedChannel recs err
  else consumeAllGo base perr (deliveredChunks caps produced)


/-- Model of `Reader.ReadAll`: argument-shape checks, then the
producer/consumer pipeline over the string-channel stream, under a
schedule given by the racy-read choice and the decoder's per-`Read`
buffer capacities. -/

def ReadAll (r : Reader) (env : TimeEnv) (arg : ReadAllArg) (csv : CsvState)
    (racyErrObserved : Bool) (caps : Nat → Nat) : ReadAllResult :=
  match arg with
  | .notPointer => .ok [] (some .errReadAllNotSlicePointer)
  | .nilPointer => .ok [] (some .errReadTargetNil)
  | .pointerToNonSlice => .ok [] (some .errReadAllNotSlicePointer)
  | .slicePtr base =>
    let p := produceAll r env base csv
    consumeAll base racyErrObserved caps p.1 p.2


/-- Model of the header-field quote trimming inside
`determineReaderColumnNames`, including its two index panics (empty
field, and a field that is a single quote character) and its slip of
checking the trailing double quote on the untrimmed string `c`. -/

def trimHeaderField (c : String) : Except GoErr String :=
  match c.data with
  | [] => .error .panicIndexOutOfRange
  | c0 :: restChars =>
    let colName := if c0 = '"' ∨ c0 = '\'' then restChars else c0 :: restChars
    match colName with
    | [] => .error .panicIndexOutOfRange
    | _ =>
      let lastIndex := colName.length - 1
      if c.data.getD lastIndex ' ' = '"' ∨ colName.getD lastIndex ' ' = '\'' then
        .ok (String.mk (colName.take lastIndex))
      else .ok (String.mk colName)


def trimHeaderFields : List String → Except GoErr (List String)
  | [] => .ok []
  | c :: rest =>
    match trimHeaderField c with
    | .error e => .error e
    | .ok name =>
      match trimHeaderFields rest with
      | .error e => .error e
      | .ok tail => .ok (name :: tail)


/-- Model of `determineReaderColumnNames`: without `readHeaders` the
supplied names are copied; with it the first line is consumed, its read
errors wrapped as header-read failures, and each field quote-trimmed. -/

def determineReaderColumnNames (csv : CsvState) (columnNames : List String)
    (readheaders : Bool) : Except GoErr (List String × CsvState) :=
  if readheaders = false then .ok (columnNames, csv)
  else
    match csv with
    | [] => .error (.headerReadError .eof)
    | line :: rest =>
      match line with
      | .error msg => .error (.headerReadError (.csvParseError msg))
      | .ok cols =>
        match trimHeaderFields cols with
        | .error e => .error e
        | .ok names => .ok (names, rest)


/-- Model of the `ReaderOptions` struct. -/

structure ReaderOptions where
  ReadHeaders : Bool := false
  ColumnNames : List String := []
  ColumnFormats : List (String × String) := []


/-- Model of `NewReader`: the variadic options are a slice and the
constructor dereferences `options[0]` unconditionally, so an empty
options list panics with an index-out-of-range failure. -/

def NewReader (csv : CsvState) (options : List ReaderOptions) :
    Except GoErr (Reader × CsvState) :=
  match options with
  | [] => .error .panicIndexOutOfRange
  | rOptions :: _ =>
    match determineReaderColumnNames csv rOptions.ColumnNames rOptions.ReadHeaders with
    | .error e => .error e
    | .ok p => .ok (⟨p.1, rOptions.ColumnFormats⟩, p.2)


def testTarget : GoType :=
  .tstruct [("F", .tfloat64), ("I", .tint), ("B", .tbool), ("S", .tstring),
    ("IP", .ptr .tint), ("IA", .slice .tint), ("SA", .slice .tstring),
    ("Tu", .ttime), ("T", .ttime)]


def testReader : Reader :=
  ⟨["F", "I", "B", "S", "IP", "IA", "SA", "Tu", "T"], [("Tu", TimeFormatUnix)]⟩


def testEnv : TimeEnv := ⟨0, fun _ _ => none⟩


def testRecord : List String :=
  ["29.4", "3", "true", "hello \"you\"", "9", "8,4,3,5", "this,is,not,a,test",
   "1613235342", "1991-04-05T11:11:11Z"]


theorem cfdDoe_bounds (z : Int) : 0 ≤ cfdDoe z ∧ cfdDoe z ≤ 146096 := by
  unfold cfdDoe cfdEra
  omega


theorem cfdYoe_fit (doe : Int) (h0 : 0 ≤ doe) (h1 : doe ≤ 146096) :
    0 ≤ cfdYoe doe ∧ cfdYoe doe ≤ 399 ∧ yearStartInEra (cfdYoe doe) ≤ doe ∧
      doe < yearStartInEra (cfdYoe doe + 1) := by
  unfold cfdYoe
  have hcr : 0 ≤ (400 * doe) / 146097 ∧ (400 * doe) / 146097 ≤ 399 := by omega
  by_cases hcase : yearStartInEra ((400 * doe) / 146097 + 1) ≤ doe
  · rw [if_pos hcase]
    unfold yearStartInEra at *
    omega
  · rw [if_neg hcase]
    unfold yearStartInEra at *
    omega


theorem doy_bounds_abstract (y doy doe : Int) (h0 : 0 ≤ y) (h1 : y ≤ 399)
    (hfit : yearStartInEra y ≤ doe ∧ doe < yearStartInEra (y + 1))
    (hdoy : doy = doe - yearStartInEra y) :
    0 ≤ doy ∧ doy ≤ 365 ∧
      (doy = 365 → (y + 1) % 4 = 0 ∧ ((y + 1) % 100 ≠ 0 ∨ y = 399)) := by
  unfold yearStartInEra at *
  omega


theorem cfdDoy_bounds (doe : Int) (h0 : 0 ≤ doe) (h1 : doe ≤ 146096) :
    0 ≤ cfdDoy doe ∧ cfdDoy doe ≤ 365 ∧
      (cfdDoy doe = 365 →
        (cfdYoe doe + 1) % 4 = 0 ∧ ((cfdYoe doe + 1) % 100 ≠ 0 ∨ cfdYoe doe = 399)) := by
  have hfit := cfdYoe_fit doe h0 h1
  exact doy_bounds_abstract (cfdYoe doe) (cfdDoy doe) doe hfit.1 hfit.2.1
    ⟨hfit.2.2.1, hfit.2.2.2⟩ rfl


theorem cfdMp_bounds (doy : Int) (h0 : 0 ≤ doy) (h1 : doy ≤ 365) :
    0 ≤ cfdMp doy ∧ cfdMp doy ≤ 11 ∧
      (153 * cfdMp doy + 2) / 5 ≤ doy ∧
      (cfdMp doy ≤ 10 → doy ≤ (153 * (cfdMp doy + 1) + 2) / 5 - 1) := by
  unfold cfdMp
  omega


theorem civilFromDays_eq (z : Int) :
    civilFromDays z =
      (cfdEra z * 400 + cfdYoe (cfdDoe z) +
        (if (if cfdMp (cfdDoy (cfdDoe z)) < 10 then cfdMp (cfdDoy (cfdDoe z)) + 3
             else cfdMp (cfdDoy (cfdDoe z)) - 9) ≤ 2 then 1 else 0),
       (if cfdMp (cfdDoy (cfdDoe z)) < 10 then cfdMp (cfdDoy (cfdDoe z)) + 3
        else cfdMp (cfdDoy (cfdDoe z)) - 9),
       cfdDoy (cfdDoe z) - (153 * cfdMp (cfdDoy (cfdDoe z)) + 2) / 5 + 1) := rfl


theorem daysFromCivil_civilFromDays (z : Int) :
    daysFromCivil (civilFromDays z).1 (civilFromDays z).2.1 (civilFromDays z).2.2 = z := by
  have hdoe := cfdDoe_bounds z
  have hfit := cfdYoe_fit (cfdDoe z) hdoe.1 hdoe.2
  have hdoy := cfdDoy_bounds (cfdDoe z) hdoe.1 hdoe.2
  have hmp := cfdMp_bounds (cfdDoy (cfdDoe z)) hdoy.1 hdoy.2.1
  have hera : cfdDoe z = z + 719468 - cfdEra z * 146097 := by unfold cfdDoe; ring
  have hdoyv : cfdDoy (cfdDoe z) = cfdDoe z - yearStartInEra (cfdYoe (cfdDoe z)) := rfl
  rw [civilFromDays_eq]
  generalize hDOE : cfdDoe z = doe at *
  generalize hE : cfdEra z = era at *
  generalize hY : cfdYoe doe = yoe at *
  generalize hD : cfdDoy doe = doy at *
  generalize hM : cfdMp doy = mp at *
  unfold yearStartInEra at hdoyv hfit
  by_cases h10 : mp < 10
  · rw [if_pos h10]
    have hm3 : ¬(mp + 3 ≤ 2) := by omega
    rw [if_neg hm3]
    simp only [daysFromCivil]
    rw [if_neg hm3, if_pos (show mp + 3 > 2 by omega)]
    simp only [add_zero, sub_zero]
    have hl : (era * 400 + yoe) / 400 = era := by omega
    rw [hl]
    have h2 : era * 400 + yoe - era * 400 = yoe := by ring
    rw [h2]
    omega
  · rw [if_neg h10]
    have hm2 : mp - 9 ≤ 2 := by omega
    rw [if_pos hm2]
    simp only [daysFromCivil]
    rw [if_pos hm2, if_neg (show ¬(mp - 9 > 2) by omega)]
    have e1 : era * 400 + yoe + 1 - 1 = era * 400 + yoe := by ring
    rw [e1]
    have hl : (era * 400 + yoe) / 400 = era := by omega
    rw [hl]
    have h2 : era * 400 + yoe - era * 400 = yoe := by ring
    rw [h2]
    omega


theorem civilFromDays_valid (z : Int) :
    1 ≤ (civilFromDays z).2.1 ∧ (civilFromDays z).2.1 ≤ 12 ∧
      1 ≤ (civilFromDays z).2.2 ∧
      (civilFromDays z).2.2 ≤ daysInMonth (civilFromDays z).1 (civilFromDays z).2.1 := by
  have hdoe := cfdDoe_bounds z
  have hfit := cfdYoe_fit (cfdDoe z) hdoe.1 hdoe.2
  have hdoy := cfdDoy_bounds (cfdDoe z) hdoe.1 hdoe.2
  have hmp := cfdMp_bounds (cfdDoy (cfdDoe z)) hdoy.1 hdoy.2.1
  rw [civilFromDays_eq]
  generalize hE : cfdEra z = era at *
  generalize hY : cfdYoe (cfdDoe z) = yoe at *
  generalize hD : cfdDoy (cfdDoe z) = doy at *
  generalize hM : cfdMp doy = mp at *
  generalize hDOE : cfdDoe z = doe at *
  by_cases h10 : mp < 10
  · rw [if_pos h10]
    have hm3 : ¬(mp + 3 ≤ 2) := by omega
    rw [if_neg hm3]
    simp only [daysInMonth]
    have hne2 : ¬(mp + 3 = 2) := by omega
    rw [if_neg hne2]
    by_cases h30 : mp + 3 = 4 ∨ mp + 3 = 6 ∨ mp + 3 = 9 ∨ mp + 3 = 11
    · rw [if_pos h30]
      omega
    · rw [if_neg h30]
      omega
  · rw [if_neg h10]
    have hm2 : mp - 9 ≤ 2 := by omega
    rw [if_pos hm2]
    simp only [daysInMonth]
    by_cases hfeb : mp - 9 = 2
    · rw [if_pos hfeb]
      have hmp11 : mp = 11 := by omega
      by_cases hleap : isLeapYear (era * 400 + yoe + 1) = true
      · rw [if_pos hleap]
        omega
      · rw [if_neg hleap]
        simp only [isLeapYear, Bool.and_eq_true, beq_iff_eq, Bool.or_eq_true, bne_iff_ne,
          not_and, not_or, Decidable.not_not] at hleap
        omega
    · rw [if_neg hfeb]
      have hne : ¬(mp - 9 = 4 ∨ mp - 9 = 6 ∨ mp - 9 = 9 ∨ mp - 9 = 11) := by omega
      rw [if_neg hne]
      omega


theorem digitVal?_digitChar (u : Nat) (h : u ≤ 9) : digitVal? (digitChar u) = some (u : Int) := by
  interval_cases u <;> rfl


theorem digit2_pad2 (x : Int) (r : List Char) (h0 : 0 ≤ x) (h1 : x ≤ 99) :
    digit2 (pad2 x ++ r) = some (x, r) := by
  have ha : (x / 10).toNat ≤ 9 := by omega
  have hb : (x % 10).toNat ≤ 9 := by omega
  simp only [pad2, List.cons_append, List.nil_append, digit2,
    digitVal?_digitChar _ ha, digitVal?_digitChar _ hb]
  have : 10 * ((x / 10).toNat : Int) + ((x % 10).toNat : Int) = x := by omega
  rw [this]


theorem digit4_pad4 (x : Int) (r : List Char) (h0 : 0 ≤ x) (h1 : x ≤ 9999) :
    digit4 (pad4 x ++ r) = some (x, r) := by
  have ha : (x / 1000).toNat ≤ 9 := by omega
  have hb : (x / 100 % 10).toNat ≤ 9 := by omega
  have hc : (x / 10 % 10).toNat ≤ 9 := by omega
  have hd : (x % 10).toNat ≤ 9 := by omega
  simp only [pad4, List.cons_append, List.nil_append, digit4,
    digitVal?_digitChar _ ha, digitVal?_digitChar _ hb,
    digitVal?_digitChar _ hc, digitVal?_digitChar _ hd]
  have : 1000 * ((x / 1000).toNat : Int) + 100 * ((x / 100 % 10).toNat : Int) +
      10 * ((x / 10 % 10).toNat : Int) + ((x % 10).toNat : Int) = x := by omega
  rw [this]


theorem expectChar_cons (c : Char) (r : List Char) : expectChar c (c :: r) = some r := by
  simp [expectChar]


theorem daysInMonth_le (y m : Int) : daysInMonth y m ≤ 31 := by
  unfold daysInMonth
  split
  · split <;> omega
  · split <;> omega


theorem digit2_pad2_nil (x : Int) (h0 : 0 ≤ x) (h1 : x ≤ 99) :
    digit2 (pad2 x) = some (x, []) := by
  have := digit2_pad2 x [] h0 h1
  rwa [List.append_nil] at this


theorem parseOffset_offsetChars (off : Int) (h0 : -1439 ≤ off) (h1 : off ≤ 1439) :
    parseOffset (offsetChars off) = some off := by
  unfold offsetChars
  by_cases hz : off = 0
  · rw [if_pos hz, hz]
    rfl
  · rw [if_neg hz]
    by_cases hp : 0 < off
    · rw [if_pos hp]
      show parseOffset ('+' :: (pad2 (off / 60) ++ ':' :: pad2 (off % 60))) = some off
      unfold parseOffset
      dsimp only
      rw [if_neg (show ¬(('+' : Char) = 'Z') by decide),
        if_pos (show (('+' : Char) = '+' ∨ ('+' : Char) = '-') by decide),
        digit2_pad2 (off / 60) _ (by omega) (by omega)]
      dsimp only
      rw [if_neg (show ¬(23 < off / 60) by omega), expectChar_cons]
      dsimp only
      rw [digit2_pad2_nil (off % 60) (by omega) (by omega)]
      dsimp only
      rw [if_neg (show ¬(59 < off % 60) by omega), if_pos rfl,
        if_pos (rfl : ('+' : Char) = '+')]
      congr 1
      omega
    · rw [if_neg hp]
      show parseOffset ('-' :: (pad2 (-off / 60) ++ ':' :: pad2 (-off % 60))) = some off
      unfold parseOffset
      dsimp only
      rw [if_neg (show ¬(('-' : Char) = 'Z') by decide),
        if_pos (show (('-' : Char) = '+' ∨ ('-' : Char) = '-') by decide),
        digit2_pad2 (-off / 60) _ (by omega) (by omega)]
      dsimp only
      rw [if_neg (show ¬(23 < -off / 60) by omega), expectChar_cons]
      dsimp only
      rw [digit2_pad2_nil (-off % 60) (by omega) (by omega)]
      dsimp only
      rw [if_neg (show ¬(59 < -off % 60) by omega), if_pos rfl,
        if_neg (show ¬(('-' : Char) = '+') by decide)]
      congr 1
      omega


theorem parseRFC3339Chars_chain (y m d hh mi ss : Int) (tail : List Char)
    (hy : 0 ≤ y ∧ y ≤ 9999) (hm : 1 ≤ m ∧ m ≤ 12) (hd : 1 ≤ d ∧ d ≤ daysInMonth y m)
    (hhh : 0 ≤ hh ∧ hh ≤ 23) (hmi : 0 ≤ mi ∧ mi ≤ 59) (hss : 0 ≤ ss ∧ ss ≤ 59) :
    parseRFC3339Chars (pad4 y ++ '-' :: (pad2 m ++ '-' :: (pad2 d ++ 'T' ::
      (pad2 hh ++ ':' :: (pad2 mi ++ ':' :: (pad2 ss ++ tail)))))) =
      match parseOffset tail with
      | none => none
      | some off =>
        some ⟨daysFromCivil y m d * 86400 + hh * 3600 + mi * 60 + ss - off * 60, off⟩ := by
  have hd31 : d ≤ 31 := le_trans hd.2 (daysInMonth_le y m)
  simp only [parseRFC3339Chars,
    digit4_pad4 y _ hy.1 hy.2, expectChar_cons,
    digit2_pad2 m _ (by omega) (by omega),
    if_neg (show ¬(m < 1 ∨ 12 < m) by omega),
    digit2_pad2 d _ (by omega) (by omega),
    if_neg (show ¬(d < 1 ∨ daysInMonth y m < d) by omega),
    digit2_pad2 hh _ (by omega) (by omega),
    if_neg (show ¬(23 < hh) by omega),
    digit2_pad2 mi _ (by omega) (by omega),
    if_neg (show ¬(59 < mi) by omega),
    digit2_pad2 ss _ (by omega) (by omega),
    if_neg (show ¬(59 < ss) by omega)]


theorem parseRFC3339_formatRFC3339 (t : TimeVal)
    (hoff : -1439 ≤ t.offsetMin ∧ t.offsetMin ≤ 1439)
    (hyr : 0 ≤ (civilFromDays ((t.sec + t.offsetMin * 60) / 86400)).1 ∧
      (civilFromDays ((t.sec + t.offsetMin * 60) / 86400)).1 ≤ 9999) :
    parseRFC3339 (formatRFC3339 t) = some t := by
  obtain ⟨sec, off⟩ := t
  simp only at hoff hyr
  unfold parseRFC3339 formatRFC3339
  have hvalid := civilFromDays_valid ((sec + off * 60) / 86400)
  have htel := daysFromCivil_civilFromDays ((sec + off * 60) / 86400)
  rcases hcv : civilFromDays ((sec + off * 60) / 86400) with ⟨y, m, d⟩
  rw [hcv] at hvalid htel hyr
  simp only at hvalid htel hyr
  have hsod : 0 ≤ (sec + off * 60) % 86400 ∧ (sec + off * 60) % 86400 ≤ 86399 := by omega
  simp only [hcv]
  show parseRFC3339Chars (yearChars y ++ '-' :: (pad2 m ++ '-' :: (pad2 d ++ 'T' ::
    (pad2 ((sec + off * 60) % 86400 / 3600) ++ ':' ::
      (pad2 ((sec + off * 60) % 86400 % 3600 / 60) ++ ':' ::
        (pad2 ((sec + off * 60) % 86400 % 60) ++ offsetChars off)))))) = some ⟨sec, off⟩
  rw [yearChars, if_pos ⟨hyr.1, hyr.2⟩]
  rw [parseRFC3339Chars_chain y m d _ _ _ (offsetChars off) ⟨hyr.1, hyr.2⟩
    ⟨hvalid.1, hvalid.2.1⟩ ⟨hvalid.2.2.1, hvalid.2.2.2⟩
    (by omega) (by omega) (by omega)]
  rw [parseOffset_offsetChars off hoff.1 hoff.2]
  dsimp only
  have : daysFromCivil y m d * 86400 + (sec + off * 60) % 86400 / 3600 * 3600 +
      (sec + off * 60) % 86400 % 3600 / 60 * 60 + (sec + off * 60) % 86400 % 60 - off * 60 =
      sec := by
    rw [htel]
    omega
  rw [this]


theorem lexStringF_escapeQuotes (cs : List Char) : ∀ (fuel : Nat) (rest : List Char),
    (escapeQuotesChars cs).length + 1 ≤ fuel → cs.all plainChar = true →
    lexStringF fuel (escapeQuotesChars cs ++ '"' :: rest) = some (cs, rest) := by
  induction cs with
  | nil =>
    intro fuel rest hfuel _
    match fuel, hfuel with
    | f + 1, _ => rfl
  | cons c cs ih =>
    intro fuel rest hfuel hplain
    simp only [List.all_cons, Bool.and_eq_true] at hplain
    have hc := hplain.1
    simp only [plainChar, Bool.decide_and, Bool.and_eq_true, decide_eq_true_eq] at hc
    by_cases hq : c = '"'
    · subst hq
      have heq : escapeQuotesChars ('"' :: cs) = '\\' :: '"' :: escapeQuotesChars cs := by
        simp [escapeQuotesChars]
      rw [heq] at hfuel ⊢
      simp only [List.length_cons] at hfuel
      match fuel, hfuel with
      | f + 1, hf =>
        show lexStringF (f + 1) ('\\' :: '"' :: (escapeQuotesChars cs ++ '"' :: rest)) =
          some ('"' :: cs, rest)
        unfold lexStringF
        rw [if_neg (by decide), if_pos rfl]
        dsimp only
        rw [if_pos rfl, ih f rest (by omega) hplain.2]
        rfl
    · have heq : escapeQuotesChars (c :: cs) = c :: escapeQuotesChars cs := by
        simp [escapeQuotesChars, hq]
      rw [heq] at hfuel ⊢
      simp only [List.length_cons] at hfuel
      match fuel, hfuel with
      | f + 1, hf =>
        show lexStringF (f + 1) (c :: (escapeQuotesChars cs ++ '"' :: rest)) =
          some (c :: cs, rest)
        unfold lexStringF
        rw [if_neg hq, if_neg hc.1, if_neg (by omega), ih f rest (by omega) hplain.2]
        rfl


theorem escapeQuotesChars_length (cs : List Char) :
    (escapeQuotesChars cs).length ≤ 2 * cs.length := by
  induction cs with
  | nil => simp [escapeQuotesChars]
  | cons c cs ih =>
    simp only [escapeQuotesChars]
    split <;> simp only [List.length_cons] <;> omega


theorem lexString_escapeQuotes (cs rest : List Char) (h : cs.all plainChar = true) :
    lexString (escapeQuotesChars cs ++ '"' :: rest) = some (cs, rest) := by
  unfold lexString
  exact lexStringF_escapeQuotes cs _ rest (by simp [List.length_append]) h


theorem escapeQuotesChars_noQuote (cs : List Char) (h : cs.all (· ≠ '"') = true) :
    escapeQuotesChars cs = cs := by
  induction cs with
  | nil => rfl
  | cons c cs ih =>
    simp only [List.all_cons, Bool.and_eq_true, decide_eq_true_eq] at h
    simp only [escapeQuotesChars, if_neg h.1, ih h.2]


theorem lexString_plain (cs rest : List Char)
    (h : cs.all (fun c => plainChar c ∧ c ≠ '"') = true) :
    lexString (cs ++ '"' :: rest) = some (cs, rest) := by
  have h1 : cs.all plainChar = true := by
    rw [List.all_eq_true] at h ⊢
    intro x hx
    have := h x hx
    simp only [Bool.decide_and, Bool.and_eq_true, decide_eq_true_eq] at this ⊢
    simp only [plainChar] at this ⊢
    exact this.1
  have h2 : cs.all (· ≠ '"') = true := by
    rw [List.all_eq_true] at h ⊢
    intro x hx
    have := h x hx
    simp only [Bool.decide_and, Bool.and_eq_true, decide_eq_true_eq] at this ⊢
    exact this.2
  have := lexString_escapeQuotes cs rest h1
  rwa [escapeQuotesChars_noQuote cs h2] at this


theorem skipWs_notWs (c : Char) (rest : List Char) (h : isWs c = false) :
    skipWs (c :: rest) = c :: rest := by
  unfold skipWs
  rw [h]
  rfl


theorem jsonParse_objSingleString (name sval : List Char)
    (hn : name.all (fun c => plainChar c ∧ c ≠ '"') = true)
    (hs : sval.all plainChar = true) :
    jsonParse (String.mk ('{' :: '"' :: (name ++ '"' :: ':' :: '"' ::
      (escapeQuotesChars sval ++ ['"', '}'])))) =
      some (.jobj [(String.mk name, .jstr (String.mk sval))]) := by
  have hlexname : lexString (name ++ '"' :: ':' :: '"' ::
      (escapeQuotesChars sval ++ ['"', '}'])) =
      some (name, ':' :: '"' :: (escapeQuotesChars sval ++ ['"', '}'])) :=
    lexString_plain _ _ hn
  have hlexval : lexString (escapeQuotesChars sval ++ '"' :: ['}']) = some (sval, ['}']) :=
    lexString_escapeQuotes _ _ hs
  have hlen : ('{' :: '"' :: (name ++ '"' :: ':' :: '"' ::
      (escapeQuotesChars sval ++ ['"', '}']))).length =
      name.length + (escapeQuotesChars sval).length + 7 := by
    simp only [List.length_cons, List.length_append, List.length_nil]
    omega
  have step2 : parseJValue (name.length + (escapeQuotesChars sval).length + 7 + 1)
      ('{' :: '"' :: (name ++ '"' :: ':' :: '"' :: (escapeQuotesChars sval ++ ['"', '}']))) =
      parseJObject (name.length + (escapeQuotesChars sval).length + 7)
        (skipWs ('"' :: (name ++ '"' :: ':' :: '"' :: (escapeQuotesChars sval ++ ['"', '}'])))) :=
    rfl
  have step3 : parseJObject (name.length + (escapeQuotesChars sval).length + 7)
      ('"' :: (name ++ '"' :: ':' :: '"' :: (escapeQuotesChars sval ++ ['"', '}']))) =
      parseJMembers (name.length + (escapeQuotesChars sval).length + 6)
        ('"' :: (name ++ '"' :: ':' :: '"' :: (escapeQuotesChars sval ++ ['"', '}']))) [] := by
    show parseJObject ((name.length + (escapeQuotesChars sval).length + 6) + 1) _ = _
    unfold parseJObject
    dsimp only
    rw [if_neg (by decide : ¬(('"' : Char) = '}'))]
  have step4 : parseJMembers (name.length + (escapeQuotesChars sval).length + 6)
      ('"' :: (name ++ '"' :: ':' :: '"' :: (escapeQuotesChars sval ++ ['"', '}']))) [] =
      (match lexString (name ++ '"' :: ':' :: '"' :: (escapeQuotesChars sval ++ ['"', '}'])) with
      | none => none
      | some (nameChars, r1) =>
        match skipWs r1 with
        | [] => none
        | c2 :: r2 =>
          if c2 = ':' then
            match parseJValue (name.length + (escapeQuotesChars sval).length + 5)
                (skipWs r2) with
            | none => none
            | some (v, r3) =>
              match skipWs r3 with
              | [] => none
              | c3 :: r4 =>
                if c3 = ',' then
                  parseJMembers (name.length + (escapeQuotesChars sval).length + 5)
                    (skipWs r4) ([] ++ [(String.mk nameChars, v)])
                else if c3 = '}' then some (.jobj ([] ++ [(String.mk nameChars, v)]), r4)
                else none
          else none) := by
    show parseJMembers ((name.length + (escapeQuotesChars sval).length + 5) + 1) _ _ = _
    unfold parseJMembers
    dsimp only
    rw [if_pos rfl]
    rfl
  have step5 : parseJValue (name.length + (escapeQuotesChars sval).length + 5)
      ('"' :: (escapeQuotesChars sval ++ ['"', '}'])) =
      (match lexString (escapeQuotesChars sval ++ ['"', '}']) with
      | none => none
      | some (content, r) => some (.jstr (String.mk content), r)) := by
    show parseJValue ((name.length + (escapeQuotesChars sval).length + 4) + 1) _ = _
    unfold parseJValue
    dsimp only
    rw [if_pos rfl]
  unfold jsonParse
  show (match parseJValue (('{' :: '"' :: (name ++ '"' :: ':' :: '"' ::
      (escapeQuotesChars sval ++ ['"', '}']))).length + 1)
      (skipWs ('{' :: '"' :: (name ++ '"' :: ':' :: '"' ::
        (escapeQuotesChars sval ++ ['"', '}'])))) with
    | none => none
    | some (v, rest) => if skipWs rest = [] then some v else none) =
    some (.jobj [(String.mk name, .jstr (String.mk sval))])
  rw [hlen, skipWs_notWs '{' _ (by decide), step2, skipWs_notWs '"' _ (by decide), step3, step4,
    hlexname]
  dsimp only
  rw [skipWs_notWs ':' _ (by decide)]
  dsimp only
  rw [if_pos rfl, skipWs_notWs '"' _ (by decide), step5]
  rw [show (escapeQuotesChars sval ++ ['"', '}'] : List Char) =
    escapeQuotesChars sval ++ '"' :: ['}'] from rfl]
  rw [hlexval]
  dsimp only
  rw [skipWs_notWs '}' _ (by decide)]
  dsimp only
  rw [if_neg (by decide : ¬(('}' : Char) = ',')), if_pos rfl]
  rfl


example : formatRFC3339 ⟨1613235342, 0⟩ = "2021-02-13T16:55:42Z" := by decide


example : jsonParse "\x7b\"A\":1,\"B\":\"x\"\x7d" =
    some (.jobj [("A", .jnum "1"), ("B", .jstr "x")]) := rfl


example : jsonParse "\x7b\"A\":1,\x7d" = none := rfl


example : jsonParse "\x7b\x7d" = some (.jobj []) := rfl


example : jsonParse "[]" = some (.jarr []) := rfl


example : jsonParse "[\"\"]" = some (.jarr [.jstr ""]) := rfl


example : jsonParse "\x7b\"T\":\"2021-02-13T16:55:42Z\"\x7d" =
    some (.jobj [("T", .jstr "2021-02-13T16:55:42Z")]) := rfl


example : jsonParse " \x7b \"A\" : -1.5e2 \x7d " =
    some (.jobj [("A", .jnum "-1.5e2")]) := rfl


example : jsonParse "\x7b\"A\":tru\x7d" = none := rfl


example :
    Read testReader testEnv testTarget false
      (zeroStruct [("F", .tfloat64), ("I", .tint), ("B", .tbool), ("S", .tstring),
        ("IP", .ptr .tint), ("IA", .slice .tint), ("SA", .slice .tstring),
        ("Tu", .ttime), ("T", .ttime)]) [.ok testRecord] =
      ([("F", .fScalar (.sFloatLit "29.4")), ("I", .fScalar (.sInt 3)),
        ("B", .fScalar (.sBool true)), ("S", .fScalar (.sStr "hello \"you\"")),
        ("IP", .fScalar (.sInt 9)),
        ("IA", .fSlice [.sInt 8, .sInt 4, .sInt 3, .sInt 5]),
        ("SA", .fSlice [.sStr "this", .sStr "is", .sStr "not", .sStr "a", .sStr "test"]),
        ("Tu", .fScalar (.sTime ⟨1613235342, 0⟩)),
        ("T", .fScalar (.sTime ⟨daysFromCivil 1991 4 5 * 86400 + 11 * 3600 + 11 * 60 + 11, 0⟩))],
       none) := by
  rfl


example :
    ReadAll testReader testEnv (.slicePtr testTarget)
      [.ok testRecord, .ok ["1", "2"]] false (fun _ => 512) =
      .ok [[("F", .fScalar (.sFloatLit "29.4")), ("I", .fScalar (.sInt 3)),
        ("B", .fScalar (.sBool true)), ("S", .fScalar (.sStr "hello \"you\"")),
        ("IP", .fScalar (.sInt 9)),
        ("IA", .fSlice [.sInt 8, .sInt 4, .sInt 3, .sInt 5]),
        ("SA", .fSlice [.sStr "this", .sStr "is", .sStr "not", .sStr "a", .sStr "test"]),
        ("Tu", .fScalar (.sTime ⟨1613235342, 0⟩)),
        ("T", .fScalar (.sTime ⟨daysFromCivil 1991 4 5 * 86400 + 11 * 3600 + 11 * 60 + 11, 0⟩))]]
       (some .errColumnNamesMismatch) := by
  rfl


example :
    ReadAll testReader testEnv (.slicePtr testTarget)
      [.ok testRecord, .ok ["1", "2"]] true (fun _ => 512) =
      .crashSendOnClosedChannel [] (some .errColumnNamesMismatch) := by
  rfl


example : NewReader [.ok ["a", "b", "c"]] [] = .error .panicIndexOutOfRange := rfl


example :
    determineReaderColumnNames [.ok ["F", "I"], .ok ["1.5", "3"]] [] true =
      .ok (["F", "I"], [.ok ["1.5", "3"]]) := by rfl


example : trimHeaderField "\"F\"" = .ok "F\"" := by rfl


example : trimHeaderField "'F'" = .ok "F" := by rfl


example : trimHeaderField "F\"" = .ok "F" := by rfl


example : trimHeaderField "" = .error .panicIndexOutOfRange := by rfl


example : trimHeaderField "\"" = .error .panicIndexOutOfRange := by rfl


example : trimHeaderField "\"A" = .ok "" := by rfl


theorem trimHeaderField_error (c : String) (e : GoErr) (h : trimHeaderField c = .error e) :
    e = .panicIndexOutOfRange := by
  unfold trimHeaderField at h
  rcases hc : c.data with _ | ⟨c0, restChars⟩ <;> rw [hc] at h
  · injection h with h2
    exact h2.symm
  · dsimp only at h
    rcases hcol : (if c0 = '"' ∨ c0 = '\'' then restChars else c0 :: restChars) with _ | ⟨x, xs⟩ <;>
      rw [hcol] at h
    · injection h with h2
      exact h2.symm
    · dsimp only at h
      split at h <;> simp at h

theorem trimHeaderFields_empty_mem (cols : List String) (h : "" ∈ cols) :
    trimHeaderFields cols = .error .panicIndexOutOfRange := by
  induction cols with
  | nil => cases h
  | cons c rest ih =>
    by_cases hc : c = ""
    · subst hc
      rfl
    · have hrest : "" ∈ rest := by
        cases h with
        | head => exact absurd rfl hc
        | tail _ hm => exact hm
      unfold trimHeaderFields
      rcases htf : trimHeaderField c with e | name
      · rw [trimHeaderField_error c e htf]
      · rw [ih hrest]

/-- C10: when `ReadHeaders` is true and some field of the first tokenized
line is the empty string, construction panics with an index-out-of-range
failure instead of returning an error: the quote trimming indexes
position 0 of each header field without checking for emptiness. -/
theorem c10_empty_header_field_panics (cols : List String) (rest : CsvState)
    (names : List String) (formats : List (String × String)) (h : "" ∈ cols) :
    NewReader (.ok cols :: rest) [⟨true, names, formats⟩] = .error .panicIndexOutOfRange := by
  unfold NewReader determineReaderColumnNames
  dsimp only
  rw [if_neg (by decide : ¬(true = false))]
  rw [trimHeaderFields_empty_mem cols h]

/-- C10 witness: the header line `A,,C` (second field empty) panics. -/
theorem c10_witness :
    ("" ∈ ["A", "", "C"]) ∧
      NewReader [.ok ["A", "", "C"]] [⟨true, [], []⟩] = .error .panicIndexOutOfRange :=
  ⟨by decide, c10_empty_header_field_panics ["A", "", "C"] [] [] [] (by decide)⟩

/-- C9: calling `NewReader` with no options panics with an
index-out-of-range failure instead of returning an error: the
constructor dereferences `options[0]` unconditionally. -/
theorem c9_newReader_no_options_panics (csv : CsvState) :
    NewReader csv [] = .error .panicIndexOutOfRange := rfl

/-- C8: the failing input for the header quote-trimming claim. The
tokenized header field `"F"` (raw CSV `""F""`) should have both its
leading and trailing double quote trimmed, giving `F`; the code checks
the trailing double quote on the untrimmed string at a shifted index and
yields `F"`. Precedence over supplied ColumnNames and consumption of the
header line do hold, as the second conjunct shows. -/
theorem c8_header_trim_failing_input :
    determineReaderColumnNames [.ok ["\"F\""], .ok ["1"]] ["X"] true =
      .ok (["F\""], [.ok ["1"]]) ∧ ("F\"" : String) ≠ "F" :=
  ⟨rfl, by decide⟩

/-- C2: the failing input for the silent-skip claim. With schema `A,B`, a
two-field record, and a target that has member `A` but not `B`, the skip
path leaves an empty slot in the labelled-field list, so `read` assembles
the corrupt literal `{"A":1,}` and `Read` fails with a JSON syntax error
instead of silently ignoring column `B`. -/
theorem c2_skipped_column_breaks_decoding :
    read1 ⟨["A", "B"], []⟩ ⟨0, fun _ _ => none⟩ (.tstruct [("A", .tint)])
      (.ok ["1", "2"]) = .ok "\x7b\"A\":1,\x7d" ∧
    Read ⟨["A", "B"], []⟩ ⟨0, fun _ _ => none⟩ (.tstruct [("A", .tint)]) false
      [("A", .fScalar (.sInt 0))] [.ok ["1", "2"]] =
      ([("A", .fScalar (.sInt 0))], some .jsonSyntaxError) :=
  ⟨rfl, rfl⟩

/-- C3: a tokenized line whose field count differs from the schema length
makes `Read` fail with `ErrColumnNamesMismatch` and leaves the target
completely unmodified, whatever the target type and prior contents. -/
theorem c3_count_mismatch_unmodified (r : Reader) (env : TimeEnv) (target : GoType)
    (init : TargetVal) (record : List String) (rest : CsvState)
    (h : record.length ≠ r.ColumnNames.length) :
    Read r env target false init (.ok record :: rest) =
      (init, some .errColumnNamesMismatch) := by
  unfold Read read1
  dsimp only
  rw [if_pos h]
  rfl

/-- C3 witness: a two-field record against a one-column schema. -/
theorem c3_witness :
    (["1", "2"].length ≠ (Reader.mk ["A"] []).ColumnNames.length) ∧
      Read ⟨["A"], []⟩ ⟨0, fun _ _ => none⟩ (.tstruct [("A", .tint)]) false
        [("A", .fScalar (.sInt 7))] [.ok ["1", "2"]] =
        ([("A", .fScalar (.sInt 7))], some .errColumnNamesMismatch) :=
  ⟨by decide, c3_count_mismatch_unmodified ⟨["A"], []⟩ ⟨0, fun _ _ => none⟩
    (.tstruct [("A", .tint)]) [("A", .fScalar (.sInt 7))] ["1", "2"] [] (by decide)⟩

/-- C4 counterexample: a field resolved as a sequence of strings with
empty raw text encodes to `[""]`, a one-element sequence literal, and
decodes to a one-element sequence holding the empty string — not to an
empty sequence as claimed for every element kind. -/
theorem c4_empty_string_sequence_counterexample :
    buildSliceFieldValue ⟨["A"], []⟩ ⟨0, fun _ _ => none⟩ .tstring "" 0 = .ok "[\"\"]" ∧
    Read ⟨["A"], []⟩ ⟨0, fun _ _ => none⟩ (.tstruct [("A", .slice .tstring)]) false
      (zeroStruct [("A", .slice .tstring)]) [.ok [""]] =
      ([("A", .fSlice [.sStr ""])], none) ∧
    ([GoScalar.sStr ""] ≠ ([] : List GoScalar)) :=
  ⟨rfl, rfl, by decide⟩

/-- C4 amended: for every sequence element kind other than string and
time, an empty raw field encodes to the empty sequence literal `[]` and
decodes to an empty sequence in the target, with no error. -/
theorem c4_empty_sequence_nonstring_kinds (k : GoType) (tz : Int)
    (tp : String → String → Option TimeVal)
    (hvalid : typeIsValid k = true) (hs : k ≠ .tstring) (ht : k ≠ .ttime) :
    Read ⟨["A"], []⟩ ⟨tz, tp⟩ (.tstruct [("A", .slice k)]) false
      (zeroStruct [("A", .slice k)]) [.ok [""]] = ([("A", .fSlice [])], none) := by
  cases k <;> try rfl
  all_goals first
    | exact absurd rfl hs
    | exact absurd rfl ht
    | simp [typeIsValid, isTimeType] at hvalid

/-- C4 witness: the amended statement at element kind `int`. -/
theorem c4_witness :
    typeIsValid GoType.tint = true ∧
      Read ⟨["A"], []⟩ ⟨0, fun _ _ => none⟩ (.tstruct [("A", .slice .tint)]) false
        (zeroStruct [("A", .slice .tint)]) [.ok [""]] = ([("A", .fSlice [])], none) :=
  ⟨by decide, c4_empty_sequence_nonstring_kinds .tint 0 (fun _ _ => none) (by decide)
    (by intro hcon; exact GoType.noConfusion hcon)
    (by intro hcon; exact GoType.noConfusion hcon)⟩

/-- C7 counterexample: the parse error carries the offending text but not
the column. The same malformed unix-time field `x` placed at column 0
(schema `A,B`) and at column 1 (schema `B,A`) produces the identical
error value, so the returned error cannot identify the column, refuting
the claim that it carries the column. -/
theorem c7_error_does_not_carry_column :
    Read ⟨["A", "B"], [("A", TimeFormatUnix)]⟩ ⟨0, fun _ _ => none⟩
      (.tstruct [("A", .ttime), ("B", .tint)]) false
      (zeroStruct [("A", .ttime), ("B", .tint)]) [.ok ["x", "1"]] =
      (zeroStruct [("A", .ttime), ("B", .tint)], some (.numError "ParseInt" "x")) ∧
    Read ⟨["B", "A"], [("A", TimeFormatUnix)]⟩ ⟨0, fun _ _ => none⟩
      (.tstruct [("A", .ttime), ("B", .tint)]) false
      (zeroStruct [("A", .ttime), ("B", .tint)]) [.ok ["1", "x"]] =
      (zeroStruct [("A", .ttime), ("B", .tint)], some (.numError "ParseInt" "x")) :=
  ⟨rfl, rfl⟩

/-- C7 amended: for every time column with a format override and every
raw field that fails to parse under it, `Read` fails with the underlying
parse error — the strconv error for the `"unix"` token, the time-parse
error (layout and offending text) otherwise — propagated verbatim to the
caller; the error carries the offending text but not the column. -/
theorem c7_parse_failure_propagates (fmt field : String) (tz : Int)
    (tp : String → String → Option TimeVal) (init : TargetVal) (rest : CsvState)
    (h : (fmt = TimeFormatUnix ∧ parseGoInt field = .error (.numError "ParseInt" field)) ∨
      (fmt ≠ TimeFormatUnix ∧ tp fmt field = none)) :
    Read ⟨["T"], [("T", fmt)]⟩ ⟨tz, tp⟩ (.tstruct [("T", .ttime)]) false init
      (.ok [field] :: rest) =
      (init, some (if fmt = TimeFormatUnix then .numError "ParseInt" field
        else .timeParseError fmt field)) := by
  rcases h with ⟨hu, hp⟩ | ⟨hn, hp⟩
  · subst hu
    rw [if_pos rfl]
    simp only [Read, read1, buildLabeledFields, parseTime, fieldByName, lookupAssoc,
      getBaseType, getFieldTypeInfo, isStructKind, isMapKind, typeIsValid, isTimeType,
      List.getD, List.get?, List.length_cons, List.length_nil, quoteJSON, joinComma,
      hp, ne_eq, ite_true, ite_false, if_true, if_false, Option.getD_some]
    rfl
  · rw [if_neg hn]
    simp only [Read, read1, buildLabeledFields, parseTime, fieldByName, lookupAssoc,
      getBaseType, getFieldTypeInfo, isStructKind, isMapKind, typeIsValid, isTimeType,
      List.getD, List.get?, List.length_cons, List.length_nil, quoteJSON, joinComma,
      hp, hn, ne_eq, ite_true, ite_false, if_true, if_false, Option.getD_some]
    rfl

/-- C7 witness: the amended statement at the `"unix"` override with the
non-numeric field `abc`. -/
theorem c7_witness :
    Read ⟨["T"], [("T", TimeFormatUnix)]⟩ ⟨0, fun _ _ => none⟩ (.tstruct [("T", .ttime)])
      false [("T", .fScalar (.sTime ⟨0, 0⟩))] [.ok ["abc"]] =
      ([("T", .fScalar (.sTime ⟨0, 0⟩))], some (.numError "ParseInt" "abc")) := by
  have h := c7_parse_failure_propagates TimeFormatUnix "abc" 0 (fun _ _ => none)
    [("T", .fScalar (.sTime ⟨0, 0⟩))] [] (Or.inl ⟨rfl, rfl⟩)
  rw [if_pos rfl] at h
  exact h

/-- C5 counterexample: the escaping handles only quote characters, so a
raw field containing a backslash is re-interpreted by the JSON string
decoder. The two-character field backslash-n decodes to the one-character
newline string, not to the original field content. -/
theorem c5_backslash_counterexample :
    Read ⟨["S"], []⟩ ⟨0, fun _ _ => none⟩ (.tstruct [("S", .tstring)]) false
      [("S", .fScalar (.sStr ""))] [.ok ["\\n"]] =
      ([("S", .fScalar (.sStr "\n"))], none) ∧ ("\n" : String) ≠ "\\n" :=
  ⟨rfl, by decide⟩

/-- C5 amended: for every raw string field free of backslashes and
control characters, encoding (escaping embedded quote characters and
wrapping in quotes) followed by JSON decoding yields the original field
content. -/
theorem c5_string_field_roundtrip (s : String) (tz : Int)
    (tp : String → String → Option TimeVal) (rest : CsvState)
    (h : s.data.all plainChar = true) :
    Read ⟨["S"], []⟩ ⟨tz, tp⟩ (.tstruct [("S", .tstring)]) false
      [("S", .fScalar (.sStr ""))] (.ok [s] :: rest) =
      ([("S", .fScalar (.sStr s))], none) := by
  have hjson := jsonParse_objSingleString ['S'] s.data (by decide) h
  have hlit : ("\x7b" ++ (quoteJSON "S" ++ ":" ++ quoteJSON (escapeQuotes s)) ++ "\x7d") =
      String.mk ('{' :: '"' :: (['S'] ++ '"' :: ':' :: '"' ::
        (escapeQuotesChars s.data ++ ['"', '}']))) := by
    apply String.ext
    simp only [String.data_append, quoteJSON, escapeQuotes]
    simp [List.append_assoc]
  unfold Read read1
  dsimp only
  rw [if_neg (by simp : ¬([s].length ≠ (["S"] : List String).length))]
  rw [if_neg (show ¬(isStructKind (getBaseType (GoType.tstruct [("S", GoType.tstring)])) =
    false ∧ isMapKind (getBaseType (GoType.tstruct [("S", GoType.tstring)])) = false)
    by decide)]
  have hbl : buildLabeledFields ⟨["S"], []⟩ ⟨tz, tp⟩
      (getBaseType (GoType.tstruct [("S", GoType.tstring)])) [s] 0 =
      .ok [quoteJSON "S" ++ ":" ++ quoteJSON (escapeQuotes s)] := rfl
  rw [hbl]
  dsimp only
  show unmarshalStruct [("S", .tstring)] [("S", .fScalar (.sStr ""))]
      ("\x7b" ++ joinComma [quoteJSON "S" ++ ":" ++ quoteJSON (escapeQuotes s)] ++ "\x7d") =
    ([("S", .fScalar (.sStr s))], none)
  rw [show joinComma [quoteJSON "S" ++ ":" ++ quoteJSON (escapeQuotes s)] =
    quoteJSON "S" ++ ":" ++ quoteJSON (escapeQuotes s) from rfl]
  rw [hlit]
  unfold unmarshalStruct
  rw [hjson]
  rfl

/-- C5 witness: the amended statement at the spec's concrete example: the
tokenized field `hello "you"` round-trips, so the input
`"hello ""you"""` decodes to `S = hello "you"`. -/
theorem c5_witness :
    Read ⟨["S"], []⟩ ⟨0, fun _ _ => none⟩ (.tstruct [("S", .tstring)]) false
      [("S", .fScalar (.sStr ""))] [.ok ["hello \"you\""]] =
      ([("S", .fScalar (.sStr "hello \"you\""))], none) :=
  c5_string_field_roundtrip "hello \"you\"" 0 (fun _ _ => none) [] (by decide)

theorem digitChar_ok (u : Nat) : plainChar (digitChar u) = true ∧ digitChar u ≠ '"' := by
  unfold digitChar
  split <;> exact (by decide)

theorem pad2_ok (x : Int) : (pad2 x).all (fun c => plainChar c ∧ c ≠ '"') = true := by
  simp only [pad2, List.all_cons, List.all_nil, Bool.and_eq_true, decide_eq_true_eq,
    Bool.and_true]
  exact ⟨digitChar_ok _, digitChar_ok _⟩

theorem pad4_ok (x : Int) : (pad4 x).all (fun c => plainChar c ∧ c ≠ '"') = true := by
  simp only [pad4, List.all_cons, List.all_nil, Bool.and_eq_true, decide_eq_true_eq,
    Bool.and_true]
  exact ⟨digitChar_ok _, digitChar_ok _, digitChar_ok _, digitChar_ok _⟩

theorem natDigitsAux_ok (fuel : Nat) : ∀ (n : Nat) (acc : List Char),
    acc.all (fun c => plainChar c ∧ c ≠ '"') = true →
    (natDigitsAux fuel n acc).all (fun c => plainChar c ∧ c ≠ '"') = true := by
  induction fuel with
  | zero => intro n acc hacc; exact hacc
  | succ f ih =>
    intro n acc hacc
    match n with
    | 0 => exact hacc
    | m + 1 =>
      show (natDigitsAux f ((m + 1) / 10) (digitChar ((m + 1) % 10) :: acc)).all _ = true
      apply ih
      simp only [List.all_cons, Bool.and_eq_true, decide_eq_true_eq]
      exact ⟨digitChar_ok _, hacc⟩

theorem yearChars_ok (y : Int) : (yearChars y).all (fun c => plainChar c ∧ c ≠ '"') = true := by
  unfold yearChars natDigits
  split
  · exact pad4_ok y
  · split
    · exact natDigitsAux_ok 30 _ [] rfl
    · simp only [List.all_cons, Bool.and_eq_true, decide_eq_true_eq]
      refine ⟨by decide, ?_⟩
      split
      · exact pad4_ok _
      · exact natDigitsAux_ok 30 _ [] rfl

theorem offsetChars_ok (off : Int) :
    (offsetChars off).all (fun c => plainChar c ∧ c ≠ '"') = true := by
  unfold offsetChars
  split
  · decide
  · split <;>
    · simp only [List.all_cons, List.all_append, Bool.and_eq_true, decide_eq_true_eq]
      exact ⟨by decide, pad2_ok _, by decide, pad2_ok _⟩

theorem formatRFC3339_ok (t : TimeVal) :
    (formatRFC3339 t).data.all (fun c => plainChar c ∧ c ≠ '"') = true := by
  unfold formatRFC3339
  show (yearChars _ ++ '-' :: (pad2 _ ++ '-' :: (pad2 _ ++ 'T' ::
    (pad2 _ ++ ':' :: (pad2 _ ++ ':' :: (pad2 _ ++ offsetChars _)))))).all _ = true
  simp only [List.all_append, List.all_cons, Bool.and_eq_true, decide_eq_true_eq]
  exact ⟨yearChars_ok _, by decide, pad2_ok _, by decide, pad2_ok _, by decide, pad2_ok _,
    by decide, pad2_ok _, by decide, pad2_ok _, offsetChars_ok _⟩

/-- C6 counterexample: the field `253402300800` is a valid base-10
integer (the instant 10000-01-01T00:00:00Z), but the reader renders it
as a five-digit year that strict RFC 3339 parsing rejects, so `Read`
fails instead of decoding to the instant. -/
theorem c6_year_overflow_counterexample :
    Read ⟨["T"], [("T", TimeFormatUnix)]⟩ ⟨0, fun _ _ => none⟩ (.tstruct [("T", .ttime)])
      false (zeroStruct [("T", .ttime)]) [.ok ["253402300800"]] =
      ([("T", .fScalar (.sTime ⟨-62135596800, 0⟩))],
        some (.timeParseError rfc3339Layout "10000-01-01T00:00:00Z")) := by
  rfl

/-- C6 amended: for every time column whose format override is the
`"unix"` token and every field that parses as a base-10 64-bit integer
`n`, provided the civil timestamp of `n` under the local whole-minute
zone offset has a year in 0–9999, `Read` decodes the field to the
instant at `n` epoch seconds; the decoded instant does not depend on the
zone offset. -/
theorem c6_unix_time_decodes (field : String) (n tz : Int)
    (tp : String → String → Option TimeVal) (rest : CsvState)
    (hparse : parseGoInt field = .ok n)
    (hoff : -1439 ≤ tz ∧ tz ≤ 1439)
    (hyr : 0 ≤ (civilFromDays ((n + tz * 60) / 86400)).1 ∧
      (civilFromDays ((n + tz * 60) / 86400)).1 ≤ 9999) :
    Read ⟨["T"], [("T", TimeFormatUnix)]⟩ ⟨tz, tp⟩ (.tstruct [("T", .ttime)]) false
      (zeroStruct [("T", .ttime)]) (.ok [field] :: rest) =
      ([("T", .fScalar (.sTime ⟨n, tz⟩))], none) := by
  have hclean := formatRFC3339_ok ⟨n, tz⟩
  have hplain : (formatRFC3339 ⟨n, tz⟩).data.all plainChar = true := by
    rw [List.all_eq_true] at hclean ⊢
    intro x hx
    have := hclean x hx
    simp only [decide_eq_true_eq] at this ⊢
    exact this.1
  have hnoq : (formatRFC3339 ⟨n, tz⟩).data.all (· ≠ '"') = true := by
    rw [List.all_eq_true] at hclean ⊢
    intro x hx
    have := hclean x hx
    simp only [decide_eq_true_eq] at this ⊢
    exact this.2
  have hesc : escapeQuotesChars (formatRFC3339 ⟨n, tz⟩).data = (formatRFC3339 ⟨n, tz⟩).data :=
    escapeQuotesChars_noQuote _ hnoq
  have hjson := jsonParse_objSingleString ['T'] (formatRFC3339 ⟨n, tz⟩).data (by decide) hplain
  rw [hesc] at hjson
  have hrt : parseRFC3339 (formatRFC3339 ⟨n, tz⟩) = some ⟨n, tz⟩ :=
    parseRFC3339_formatRFC3339 ⟨n, tz⟩ hoff hyr
  have hlit : ("\x7b" ++ (quoteJSON "T" ++ ":" ++ quoteJSON (formatRFC3339 ⟨n, tz⟩)) ++
      "\x7d") = String.mk ('{' :: '"' :: (['T'] ++ '"' :: ':' :: '"' ::
        ((formatRFC3339 ⟨n, tz⟩).data ++ ['"', '}']))) := by
    apply String.ext
    simp only [String.data_append, quoteJSON]
    simp [List.append_assoc]
  unfold Read read1
  dsimp only
  rw [if_neg (by simp : ¬([field].length ≠ (["T"] : List String).length))]
  rw [if_neg (show ¬(isStructKind (getBaseType (GoType.tstruct [("T", GoType.ttime)])) =
    false ∧ isMapKind (getBaseType (GoType.tstruct [("T", GoType.ttime)])) = false)
    by decide)]
  have hbl : buildLabeledFields ⟨["T"], [("T", TimeFormatUnix)]⟩ ⟨tz, tp⟩
      (getBaseType (GoType.tstruct [("T", GoType.ttime)])) [field] 0 =
      .ok [quoteJSON "T" ++ ":" ++ quoteJSON (formatRFC3339 ⟨n, tz⟩)] := by
    simp only [buildLabeledFields, parseTime, fieldByName, lookupAssoc, getBaseType,
      getFieldTypeInfo, typeIsValid, isTimeType, List.getD, List.get?, hparse,
      ite_true, if_true]
    rfl
  rw [hbl]
  dsimp only
  show unmarshalStruct [("T", .ttime)] (zeroStruct [("T", .ttime)])
      ("\x7b" ++ joinComma [quoteJSON "T" ++ ":" ++ quoteJSON (formatRFC3339 ⟨n, tz⟩)] ++
        "\x7d") = ([("T", .fScalar (.sTime ⟨n, tz⟩))], none)
  rw [show joinComma [quoteJSON "T" ++ ":" ++ quoteJSON (formatRFC3339 ⟨n, tz⟩)] =
    quoteJSON "T" ++ ":" ++ quoteJSON (formatRFC3339 ⟨n, tz⟩) from rfl]
  rw [hlit]
  unfold unmarshalStruct
  rw [show String.mk ('{' :: '"' :: (['T'] ++ '"' :: ':' :: '"' ::
    ((formatRFC3339 ⟨n, tz⟩).data ++ ['"', '}']))) =
    String.mk ('{' :: '"' :: (['T'] ++ '"' :: ':' :: '"' ::
      ((formatRFC3339 ⟨n, tz⟩).data ++ ['"', '}']))) from rfl, hjson]
  show decodeMembers [("T", .ttime)]
    [(String.mk ['T'], .jstr (String.mk (formatRFC3339 ⟨n, tz⟩).data))]
    (zeroStruct [("T", .ttime)]) = ([("T", .fScalar (.sTime ⟨n, tz⟩))], none)
  simp only [decodeMembers, lookupAssoc, decodeField, getBaseType, decodeScalar, hrt,
    updateAssoc, zeroStruct, zeroField, List.map, ite_true, if_true, Option.getD_some]
  rfl

/-- C6 witness: the amended statement at the spec's concrete example
`1613235342`, under the zone offset +05:30, still decodes to the instant
1613235342. -/
theorem c6_witness :
    Read ⟨["T"], [("T", TimeFormatUnix)]⟩ ⟨330, fun _ _ => none⟩ (.tstruct [("T", .ttime)])
      false (zeroStruct [("T", .ttime)]) [.ok ["1613235342"]] =
      ([("T", .fScalar (.sTime ⟨1613235342, 330⟩))], none) :=
  c6_unix_time_decodes "1613235342" 1613235342 330 (fun _ _ => none) [] (by rfl)
    (by decide) (by decide)

theorem produceAll_append (r : Reader) (env : TimeEnv) (base : GoType)
    (goods : CsvState) (jsons : List String) (bad : CsvLine) (rest : CsvState) (e : GoErr)
    (hgood : List.Forall₂ (fun l j => read1 r env base l = .ok j) goods jsons)
    (hbad : read1 r env base bad = .error e) :
    produceAll r env base (goods ++ bad :: rest) = (jsons, some e) := by
  induction hgood with
  | nil =>
    show produceAll r env base (bad :: rest) = ([], some e)
    unfold produceAll
    rw [hbad]
  | @cons l j goods2 jsons2 h _ ih =>
    show produceAll r env base (l :: (goods2 ++ bad :: rest)) = (j :: jsons2, some e)
    unfold produceAll
    rw [h]
    dsimp only
    rw [ih]

theorem stringStreamRead_of_le (cap : Nat) (l : List Char) (h : utf8Len l ≤ cap) :
    stringStreamRead cap l = l := by
  induction l generalizing cap with
  | nil => rfl
  | cons c rest ih =>
    unfold utf8Len at h
    unfold stringStreamRead
    rw [if_pos (by omega)]
    rw [ih (cap - c.utf8Size) (by omega)]

theorem consumeAllGo_ok (base : GoType) (perr : Option GoErr) (caps : Nat → Nat)
    (jsons : List String) (recs : List TargetVal)
    (hdec : List.Forall₂ (fun j v => decodeRecord base j = (v, none)) jsons recs)
    (hlen : ∀ j ∈ jsons, utf8Len j.data ≤ 512) (hcaps : ∀ i, 512 ≤ caps i) :
    consumeAllGo base perr (deliveredChunks caps jsons) = .ok recs perr := by
  revert hlen
  revert caps
  induction hdec with
  | nil => intro caps hcaps hlen; rfl
  | @cons j v jsons2 recs2 h htail ih =>
    intro caps hcaps hlen
    show consumeAllGo base perr (deliveredChunks caps (j :: jsons2)) = .ok (v :: recs2) perr
    unfold deliveredChunks
    rw [stringStreamRead_of_le (caps 0) j.data
      (le_trans (hlen j (List.mem_cons_self j jsons2)) (hcaps 0))]
    unfold consumeAllGo
    rw [show String.mk j.data = j from rfl, h]
    dsimp only
    rw [ih (fun i => caps (i + 1)) (fun i => hcaps (i + 1))
      (fun j2 hj2 => hlen j2 (List.mem_cons_of_mem j hj2))]

theorem forall2_dropLast {α β : Type} {R : α → β → Prop} {l1 : List α} {l2 : List β}
    (h : List.Forall₂ R l1 l2) : List.Forall₂ R l1.dropLast l2.dropLast := by
  induction h with
  | nil => exact .nil
  | @cons a b t1 t2 hab htail ih =>
    cases htail with
    | nil => exact .nil
    | cons h2 h3 =>
      exact .cons hab ih

/-- C1 amended: when every line before line k assembles (to a record
of at most 512 bytes of JSON, the refill window the decoder always
grants `stringStreamReader.Read`, beyond which the rest of a record is
discarded in transit) and decodes successfully, and line k fails to
assemble, `ReadAll` on a valid pointer-to-slice appends decoded
records in input line order and appends nothing for line k or beyond.
Under the schedule in which the consumer drains the stream to its EOF
sentinel it appends the records of lines 1..k-1 and returns the
non-nil assembly error; under the schedule in which the consumer's
unsynchronized read of `streamParseError` observes the producer's
write, it appends only the records of lines 1..k-2, returns the error,
and the process then crashes — the deferred `stream.Close()` closes
the channel while the producer is blocked in its deferred sentinel
send. -/
theorem c1_readAll_midstream_error (r : Reader) (env : TimeEnv) (base : GoType)
    (goods : CsvState) (jsons : List String) (recs : List TargetVal)
    (bad : CsvLine) (rest : CsvState) (e : GoErr) (race : Bool) (caps : Nat → Nat)
    (hgood : List.Forall₂ (fun l j => read1 r env base l = .ok j) goods jsons)
    (hdec : List.Forall₂ (fun j v => decodeRecord base j = (v, none)) jsons recs)
    (hbad : read1 r env base bad = .error e)
    (hlen : ∀ j ∈ jsons, utf8Len j.data ≤ 512)
    (hcaps : ∀ i, 512 ≤ caps i) :
    ReadAll r env (.slicePtr base) (goods ++ bad :: rest) race caps =
      (if race ∧ jsons ≠ [] then
        .crashSendOnClosedChannel recs.dropLast (some e)
      else .ok recs (some e)) := by
  unfold ReadAll
  dsimp only
  rw [produceAll_append r env base goods jsons bad rest e hgood hbad]
  unfold consumeAll
  cases race with
  | false =>
    rw [if_neg (show ¬((false && (some e).isSome && !jsons.isEmpty) = true) by simp)]
    rw [if_neg (show ¬((false : Bool) ∧ jsons ≠ []) by simp)]
    exact consumeAllGo_ok base (some e) caps jsons recs hdec hlen hcaps
  | true =>
    by_cases hj : jsons = []
    · subst hj
      cases hdec
      rw [if_neg (show ¬((true && (some e).isSome && !(List.isEmpty ([] : List String))) = true)
        by simp)]
      rw [if_neg (show ¬((true : Bool) ∧ ([] : List String) ≠ []) by simp)]
      rfl
    · have hcond : (true && (some e).isSome && !jsons.isEmpty) = true := by
        cases jsons with
        | nil => exact absurd rfl hj
        | cons a l => rfl
      rw [if_pos hcond]
      rw [consumeAllGo_ok base (some e) caps jsons.dropLast recs.dropLast
        (forall2_dropLast hdec)
        (fun j2 hj2 => hlen j2 (List.dropLast_subset jsons hj2))
        hcaps]
      rw [if_pos (show (true : Bool) ∧ jsons ≠ [] from ⟨rfl, hj⟩)]

/-- C1 counterexample: one well-formed line followed by a malformed
one. Under the schedule in which the consumer's unsynchronized check
of `streamParseError` observes the producer's write, the record of the
well-formed first line is dropped and the process crashes through the
producer's send on the closed stream channel, while under the other
schedule the record is appended and `ReadAll` returns cleanly — so the
claimed guarantee that the records of lines 1..k-1 are appended and
the error returned does not hold under every schedule. -/
theorem c1_race_counterexample :
    ReadAll ⟨["A"], []⟩ ⟨0, fun _ _ => none⟩ (.slicePtr (.tstruct [("A", .tint)]))
      [.ok ["1"], .ok ["x", "y"]] true (fun _ => 512) =
      .crashSendOnClosedChannel [] (some .errColumnNamesMismatch) ∧
    ReadAll ⟨["A"], []⟩ ⟨0, fun _ _ => none⟩ (.slicePtr (.tstruct [("A", .tint)]))
      [.ok ["1"], .ok ["x", "y"]] false (fun _ => 512) =
      .ok [[("A", .fScalar (.sInt 1))]] (some .errColumnNamesMismatch) :=
  ⟨rfl, rfl⟩

/-- C1 witness: the amended statement at two good lines followed by a
field-count-mismatch line, under the benign schedule with the minimal
512-byte refill windows. -/
theorem c1_witness :
    ReadAll ⟨["A"], []⟩ ⟨0, fun _ _ => none⟩ (.slicePtr (.tstruct [("A", .tint)]))
      [.ok ["1"], .ok ["2"], .ok ["x", "y"]] false (fun _ => 512) =
      .ok [[("A", .fScalar (.sInt 1))], [("A", .fScalar (.sInt 2))]]
        (some .errColumnNamesMismatch) := by
  have h := c1_readAll_midstream_error ⟨["A"], []⟩ ⟨0, fun _ _ => none⟩
    (.tstruct [("A", .tint)]) [.ok ["1"], .ok ["2"]] ["\x7b\"A\":1\x7d", "\x7b\"A\":2\x7d"]
    [[("A", .fScalar (.sInt 1))], [("A", .fScalar (.sInt 2))]] (.ok ["x", "y"]) []
    .errColumnNamesMismatch false (fun _ => 512)
    (.cons rfl (.cons rfl .nil)) (.cons rfl (.cons rfl .nil)) rfl
    (by decide) (fun _ => Nat.le_refl 512)
  rw [if_neg (by simp)] at h
  exact h

end Csvee
